import Mathlib

/-!
Verification of the column-migrate tool: an online column-type migration
utility for PostgreSQL (source files main.go, helper.go, migrate.go).

The development shallowly embeds the program:

* the database table is a list of rows, each row carrying the value of the
  ordering (primary-key) column, its physical row identity (ctid), the
  source column value and the shadow column value (options model SQL NULL);
* the preflight validator is a function over an abstract catalog oracle
  recording the outcome of each catalog query the Go code issues;
* the orchestrator (runMigration) produces a trace of events — statements
  executed against the database, statements printed in dry-run mode,
  EXPLAIN queries, fatal aborts and informational output lines — together
  with the final database state, the rows-affected sequence of the backfill
  loop and a flag recording whether the process survived;
* the backfill loop is a well-founded recursion on the number of pending
  rows (rows whose source is non-null and shadow is null), mirroring the
  Go for-loop that breaks when a batch reports zero rows affected.

Abstractions: wall-clock time (the 200 ms throttle sleep and the verbose
timing output) is not modelled — timing output lines appear with a fixed
placeholder text; the EXPLAIN output rows are not modelled; an arbitrary
engine-side failure of a DDL statement is not modelled (the one
deterministic execution failure, a negative LIMIT in a batch statement,
is modelled as a fatal abort).  The catalog-query failure inside the Go
helper columnExists calls log.Fatalf directly and is not modelled; the
column-existence checks are embedded as boolean oracles.
-/

namespace ColumnMigrate

/-! ### Data model -/

/-- One table row: the ordering-column value (key), the physical row
identity (ctid), the source column value and the shadow column value.
none models SQL NULL. -/
structure Row where
  ctid : Nat
  key : Nat
  source : Option Int
  shadow : Option Int
deriving Repr, DecidableEq

/-- The visible database state: the columns of the target table, its rows,
and whether the sync trigger is currently installed. -/
structure DbState where
  columns : List String
  rows : List Row
  triggerInstalled : Bool
deriving Repr, DecidableEq

/-- The immutable migration plan, as assembled from the CLI flags in
main.go and passed to runMigration in migrate.go. -/
structure MigrationPlan where
  schema : String
  table : String
  column : String
  newType : String
  batchSize : Int
  pkColumn : String
  dryRun : Bool
  verbose : Bool
deriving Repr, DecidableEq

/-- migrate.go line 10: tempColumn := column + "_new". -/
def tempColumn (plan : MigrationPlan) : String := plan.column ++ "_new"

/-- migrate.go line 11: funcName := fmt.Sprintf("sync_%s_%s", table, column). -/
def funcName (plan : MigrationPlan) : String :=
  "sync_" ++ plan.table ++ "_" ++ plan.column

/-- migrate.go line 12: triggerName := fmt.Sprintf("trg_sync_%s_%s", table, column). -/
def triggerName (plan : MigrationPlan) : String :=
  "trg_sync_" ++ plan.table ++ "_" ++ plan.column

/-- The two backfill pagination strategies of migrate.go: keyed (an
ordering column was supplied) and ctid fallback. -/
inductive Strategy where
  | keyed
  | ctidFallback
deriving Repr, DecidableEq

/-- migrate.go line 52: the keyed strategy is chosen iff pkColumn is
non-empty. -/
def strategyOf (plan : MigrationPlan) : Strategy :=
  if plan.pkColumn = "" then .ctidFallback else .keyed

/-- The row identity the batch UPDATE joins on: the ordering column for the
keyed strategy, the physical identity for the fallback. -/
def rowId : Strategy → Row → Nat
  | .keyed, r => r.key
  | .ctidFallback, r => r.ctid

/-! ### Identifier quoting (helper.go) and the safety notion it must meet -/

/-- helper.go lines 85-87: quote wraps an identifier in double quotes,
without escaping any double-quote characters inside the identifier. -/
def quote (identifier : String) : String :=
  "\"" ++ identifier ++ "\""

/-- Modelled from the spec: a PostgreSQL quoted-identifier reader.  Having
consumed an opening double quote, it reads characters until an unescaped
closing double quote; a doubled double quote inside the region denotes a
literal double-quote character.  Returns the identifier content and the
remaining (uninterpreted) text, or none when the region never closes. -/
def readQuoted : List Char → List Char → Option (List Char × List Char)
  | acc, '"' :: '"' :: rest => readQuoted (acc ++ ['"']) rest
  | acc, '"' :: rest => some (acc, rest)
  | acc, c :: rest => readQuoted (acc ++ [c]) rest
  | _, [] => none

/-- Modelled from the spec: parse a leading quoted identifier of a SQL
text, returning the identifier it denotes and the trailing text after the
quoted region closes. -/
def parseQuotedIdent (s : String) : Option (String × String) :=
  match s.data with
  | '"' :: rest => (readQuoted [] rest).map (fun p => (String.mk p.1, String.mk p.2))
  | _ => none

/-- Modelled from the spec: a quoting transform is safe for an identifier
when the quoted form reads back as exactly that identifier with no
trailing text — the content cannot terminate the quoted region early nor
inject further SQL. -/
def quoteSafe (identifier : String) : Prop :=
  parseQuotedIdent (quote identifier) = some (identifier, "")

/-! ### Statement Builder (the SQL texts of migrate.go / helper.go) -/

/-- migrate.go lines 16-19: the add-shadow-column DDL. -/
def addColumnSQL (plan : MigrationPlan) : String :=
  "ALTER TABLE " ++ quote plan.schema ++ "." ++ quote plan.table ++
    " ADD COLUMN " ++ quote (tempColumn plan) ++ " " ++ plan.newType ++ ";"

/-- migrate.go lines 26-44: the install-sync statement group (create or
replace the trigger function, drop any pre-existing trigger of the derived
name, create the BEFORE INSERT OR UPDATE row trigger). -/
def installSyncSQL (plan : MigrationPlan) : String :=
  "CREATE OR REPLACE FUNCTION " ++ quote plan.schema ++ "." ++ quote (funcName plan) ++
    "() RETURNS TRIGGER AS $$ BEGIN NEW." ++ quote (tempColumn plan) ++
    " = NEW." ++ quote plan.column ++ "; RETURN NEW; END; $$ LANGUAGE plpgsql;\n" ++
  "DROP TRIGGER IF EXISTS " ++ quote (triggerName plan) ++ " ON " ++
    quote plan.schema ++ "." ++ quote plan.table ++ ";\n" ++
  "CREATE TRIGGER " ++ quote (triggerName plan) ++ " BEFORE INSERT OR UPDATE ON " ++
    quote plan.schema ++ "." ++ quote plan.table ++ " FOR EACH ROW EXECUTE FUNCTION " ++
    quote plan.schema ++ "." ++ quote (funcName plan) ++ "();"

/-- migrate.go lines 54-72: the keyed backfill batch statement. -/
def batchKeyedSQL (plan : MigrationPlan) : String :=
  "UPDATE " ++ quote plan.schema ++ "." ++ quote plan.table ++ " AS t SET " ++
    quote (tempColumn plan) ++ " = t." ++ quote plan.column ++
    " FROM (SELECT " ++ quote plan.pkColumn ++ " FROM " ++
    quote plan.schema ++ "." ++ quote plan.table ++ " WHERE " ++
    quote plan.column ++ " IS NOT NULL AND " ++ quote (tempColumn plan) ++
    " IS NULL ORDER BY " ++ quote plan.pkColumn ++ " LIMIT " ++
    toString plan.batchSize ++ ") AS s WHERE t." ++ quote plan.pkColumn ++
    " = s." ++ quote plan.pkColumn ++ ";"

/-- migrate.go lines 75-89: the ctid-fallback backfill batch statement. -/
def batchFallbackSQL (plan : MigrationPlan) : String :=
  "UPDATE " ++ quote plan.schema ++ "." ++ quote plan.table ++ " AS t SET " ++
    quote (tempColumn plan) ++ " = t." ++ quote plan.column ++
    " FROM (SELECT ctid FROM " ++ quote plan.schema ++ "." ++ quote plan.table ++
    " WHERE " ++ quote plan.column ++ " IS NOT NULL AND " ++
    quote (tempColumn plan) ++ " IS NULL LIMIT " ++ toString plan.batchSize ++
    ") AS s WHERE t.ctid = s.ctid;"

/-- migrate.go lines 117-121: the teardown statement group (drop trigger,
then drop function). -/
def teardownSQL (plan : MigrationPlan) : String :=
  "DROP TRIGGER IF EXISTS " ++ quote (triggerName plan) ++ " ON " ++
    quote plan.schema ++ "." ++ quote plan.table ++ ";\n" ++
  "DROP FUNCTION IF EXISTS " ++ quote plan.schema ++ "." ++ quote (funcName plan) ++ "();"

/-- migrate.go lines 126-130: the swap statement group (drop the source
column, rename the shadow column to the source name). -/
def swapSQL (plan : MigrationPlan) : String :=
  "ALTER TABLE " ++ quote plan.schema ++ "." ++ quote plan.table ++
    " DROP COLUMN " ++ quote plan.column ++ ";\n" ++
  "ALTER TABLE " ++ quote plan.schema ++ "." ++ quote plan.table ++
    " RENAME COLUMN " ++ quote (tempColumn plan) ++ " TO " ++ quote plan.column ++ ";"

/-! ### Preflight validator (helper.go lines 151-201) -/

/-- Outcome of one fallible catalog query made by preflight: the query
succeeded and answered yes, succeeded and answered no, or failed. -/
inductive Outcome where
  | yes
  | no
  | err
deriving Repr, DecidableEq

/-- The catalog oracle behind the preflight checks: the answers the
database would give to each catalog query of helper.go.  colExists is the
information_schema column lookup of columnExists, keyed by column name
(its query-failure path calls log.Fatalf directly and is not modelled);
pendingCnt is the best-effort pending-row count, none when that query
fails. -/
structure CatalogDb where
  schemaEx : Outcome
  tableEx : Outcome
  colExists : String → Bool
  alterPriv : Outcome
  typeValid : Outcome
  pendingCnt : Option Int

/-- The individual preflight checks, in the vocabulary of the spec. -/
inductive Check where
  | schemaCheck
  | tableCheck
  | columnCheck
  | pkColumnCheck
  | privilegeCheck
  | typeCheck
  | pendingCountCheck
deriving Repr, DecidableEq

/-- The descriptive errors preflight can return, one per failure site of
helper.go lines 151-201 (query failure and negative answer give distinct
messages in the Go code). -/
inductive PreflightErr where
  | schemaCheckFailed
  | schemaMissing
  | tableCheckFailed
  | tableMissing
  | columnMissing
  | pkColumnMissing
  | privCheckFailed
  | noAlterPrivilege
  | typeCheckFailed
  | typeUnrecognized
deriving Repr, DecidableEq

/-- What a preflight run did: the checks it performed in order, the error
it returned (none = success), whether it printed the pending-row estimate
and whether it printed the verbose could-not-compute notice. -/
structure PreflightOut where
  performed : List Check
  result : Option PreflightErr
  printedEstimate : Bool
  printedCountFailure : Bool
deriving Repr, DecidableEq

/-- helper.go lines 151-201: the preflight validator.  Checks run in
source order with an early return on the first failure; the trailing
pending-row count never fails the run — its failure only suppresses the
estimate (and, when verbose, prints a notice).  Note that preflight
receives no batch size and performs no input-range check on it. -/
def preflight (db : CatalogDb) (column pkColumn : String) (verbose : Bool) :
    PreflightOut :=
  match db.schemaEx with
  | .err => ⟨[.schemaCheck], some .schemaCheckFailed, false, false⟩
  | .no => ⟨[.schemaCheck], some .schemaMissing, false, false⟩
  | .yes =>
    match db.tableEx with
    | .err => ⟨[.schemaCheck, .tableCheck], some .tableCheckFailed, false, false⟩
    | .no => ⟨[.schemaCheck, .tableCheck], some .tableMissing, false, false⟩
    | .yes =>
      if !db.colExists column then
        ⟨[.schemaCheck, .tableCheck, .columnCheck], some .columnMissing, false, false⟩
      else if pkColumn ≠ "" && !db.colExists pkColumn then
        ⟨[.schemaCheck, .tableCheck, .columnCheck, .pkColumnCheck],
          some .pkColumnMissing, false, false⟩
      else
        let done := [.schemaCheck, .tableCheck, .columnCheck] ++
          (if pkColumn ≠ "" then [Check.pkColumnCheck] else [])
        match db.alterPriv with
        | .err => ⟨done ++ [.privilegeCheck], some .privCheckFailed, false, false⟩
        | .no => ⟨done ++ [.privilegeCheck], some .noAlterPrivilege, false, false⟩
        | .yes =>
          match db.typeValid with
          | .err => ⟨done ++ [.privilegeCheck, .typeCheck], some .typeCheckFailed, false, false⟩
          | .no => ⟨done ++ [.privilegeCheck, .typeCheck], some .typeUnrecognized, false, false⟩
          | .yes =>
            ⟨done ++ [.privilegeCheck, .typeCheck, .pendingCountCheck], none,
              db.pendingCnt.isSome, verbose && db.pendingCnt.isNone⟩

/-- Modelled from the spec (section 4.1): the ordered list of gating
checks — schema, table, source column, ordering column (only when one was
supplied), alter privilege, type validity. -/
def gatingChecks (pkSupplied : Bool) : List Check :=
  [.schemaCheck, .tableCheck, .columnCheck] ++
    (if pkSupplied then [Check.pkColumnCheck] else []) ++
    [.privilegeCheck, .typeCheck]

/-- Modelled from the spec: the outcome of one gating check against the
catalog oracle. -/
def checkErr (db : CatalogDb) (column pkColumn : String) :
    Check → Option PreflightErr
  | .schemaCheck =>
    match db.schemaEx with
    | .err => some .schemaCheckFailed
    | .no => some .schemaMissing
    | .yes => none
  | .tableCheck =>
    match db.tableEx with
    | .err => some .tableCheckFailed
    | .no => some .tableMissing
    | .yes => none
  | .columnCheck => if db.colExists column then none else some .columnMissing
  | .pkColumnCheck => if db.colExists pkColumn then none else some .pkColumnMissing
  | .privilegeCheck =>
    match db.alterPriv with
    | .err => some .privCheckFailed
    | .no => some .noAlterPrivilege
    | .yes => none
  | .typeCheck =>
    match db.typeValid with
    | .err => some .typeCheckFailed
    | .no => some .typeUnrecognized
    | .yes => none
  | .pendingCountCheck => none

/-- Modelled from the spec: run a list of checks in order, short-circuiting
on the first failure; returns the checks performed and the first error. -/
def runChecks (db : CatalogDb) (column pkColumn : String) :
    List Check → List Check × Option PreflightErr
  | [] => ([], none)
  | c :: cs =>
    match checkErr db column pkColumn c with
    | some e => ([c], some e)
    | none =>
      let r := runChecks db column pkColumn cs
      (c :: r.1, r.2)

/-- Modelled from the spec (section 4.1): preflight performs the gating
checks in their fixed order, short-circuits with the first failure, and —
only when all gating checks pass — performs the best-effort pending-row
count, whose failure is non-fatal and only suppresses the estimate. -/
def preflightSpec (db : CatalogDb) (column pkColumn : String) :
    List Check × Option PreflightErr × Bool :=
  let g := runChecks db column pkColumn (gatingChecks (pkColumn ≠ ""))
  match g.2 with
  | some e => (g.1, some e, false)
  | none => (g.1 ++ [.pendingCountCheck], none, db.pendingCnt.isSome)

/-- main.go lines 26-31: the only input validation main performs — the
four required string flags must be non-empty.  The batch size flag is not
examined here (nor anywhere else before the backfill loop runs). -/
def missingRequiredFlags (conn table column newType : String) : Bool :=
  conn == "" || table == "" || column == "" || newType == ""

/-! ### Backfill machinery (migrate.go lines 50-114) -/

/-- The backfill predicate of every batch statement and of
pendingBackfillCount: source IS NOT NULL AND shadow IS NULL. -/
def needsBackfill (r : Row) : Bool := r.source.isSome && r.shadow.isNone

/-- The number of rows still requiring backfill (helper.go lines 141-148). -/
def pendingCount (t : List Row) : Nat := t.countP needsBackfill

/-- The inner SELECT of one batch statement: the row identities of up to
batchSize pending rows — in ascending ordering-column order for the keyed
strategy (the table list is sorted for the ORDER BY), in physical order
for the ctid fallback (list order models physical order). -/
def selectBatch (st : Strategy) (bs : Nat) (t : List Row) : List Nat :=
  match st with
  | .keyed =>
    (((t.filter needsBackfill).mergeSort (fun a b => a.key ≤ b.key)).take bs).map Row.key
  | .ctidFallback => ((t.filter needsBackfill).take bs).map Row.ctid

/-- The UPDATE of one batch statement: every row whose identity matches a
selected identity gets its shadow column set from its source column. -/
def applyBatch (st : Strategy) (t : List Row) (sel : List Nat) : List Row :=
  t.map fun r => if rowId st r ∈ sel then { r with shadow := r.source } else r

/-- The rows-affected count the engine reports for one batch statement:
the number of table rows whose identity matches a selected identity. -/
def rowsMatched (st : Strategy) (t : List Row) (sel : List Nat) : Nat :=
  t.countP (fun r => decide (rowId st r ∈ sel))

lemma needsBackfill_update (r : Row) :
    needsBackfill { r with shadow := r.source } = false := by
  cases h : r.source <;> simp [needsBackfill, h]

lemma pendingCount_applyBatch (st : Strategy) (t : List Row) (sel : List Nat) :
    pendingCount (applyBatch st t sel)
      = t.countP (fun r => needsBackfill r && !(decide (rowId st r ∈ sel))) := by
  unfold pendingCount applyBatch
  rw [List.countP_map]
  apply List.countP_congr
  intro r _
  by_cases h : rowId st r ∈ sel <;> simp [h, needsBackfill_update]

lemma countP_and_not_lt {α : Type} (p q : α → Bool) (l : List α) (x : α)
    (hx : x ∈ l) (hp : p x = true) (hq : q x = true) :
    l.countP (fun a => p a && !(q a)) < l.countP p := by
  induction l with
  | nil => cases hx
  | cons a l ih =>
    rw [List.countP_cons, List.countP_cons]
    rcases List.mem_cons.mp hx with h | h
    · subst h
      have hle : l.countP (fun a => p a && !(q a)) ≤ l.countP p :=
        List.countP_mono_left (by intro y _ hy; exact (Bool.and_elim_left hy))
      simp [hp, hq]
      omega
    · have := ih h
      have h2 : (if (p a && !(q a)) = true then 1 else 0) ≤ (if p a = true then 1 else 0) := by
        by_cases hpa : p a = true <;> by_cases hqa : q a = true <;> simp [hpa, hqa]
      omega

lemma countP_and_not_add {α : Type} (p q : α → Bool) (l : List α) :
    l.countP (fun a => p a && !(q a)) + l.countP (fun a => p a && q a)
      = l.countP p := by
  induction l with
  | nil => simp
  | cons a l ih =>
    simp only [List.countP_cons]
    by_cases hpa : p a = true <;> by_cases hqa : q a = true <;>
      simp [hpa, hqa] <;> omega

/-- Every selected row identity is the identity of a pending row of the
table. -/
lemma selectBatch_sound {st : Strategy} {bs : Nat} {t : List Row} {k : Nat}
    (hk : k ∈ selectBatch st bs t) :
    ∃ p ∈ t, needsBackfill p = true ∧ rowId st p = k := by
  cases st with
  | keyed =>
    simp only [selectBatch, List.mem_map] at hk
    obtain ⟨p, hpTake, hpId⟩ := hk
    have hpSort := List.mem_of_mem_take hpTake
    have hpFilt := List.mem_mergeSort.mp hpSort
    obtain ⟨hpT, hpPend⟩ := List.mem_filter.mp hpFilt
    exact ⟨p, hpT, hpPend, hpId⟩
  | ctidFallback =>
    simp only [selectBatch, List.mem_map] at hk
    obtain ⟨p, hpTake, hpId⟩ := hk
    have hpFilt := List.mem_of_mem_take hpTake
    obtain ⟨hpT, hpPend⟩ := List.mem_filter.mp hpFilt
    exact ⟨p, hpT, hpPend, hpId⟩

lemma exists_pending_selected {st : Strategy} {bs : Nat} {t : List Row}
    (h : rowsMatched st t (selectBatch st bs t) ≠ 0) :
    ∃ p ∈ t, needsBackfill p = true ∧ rowId st p ∈ selectBatch st bs t := by
  have hpos : 0 < t.countP (fun r => decide (rowId st r ∈ selectBatch st bs t)) :=
    Nat.pos_of_ne_zero h
  obtain ⟨r0, _, hr0⟩ := List.countP_pos_iff.mp hpos
  obtain ⟨p, hpT, hpPend, hpId⟩ := selectBatch_sound (of_decide_eq_true hr0)
  exact ⟨p, hpT, hpPend, hpId ▸ of_decide_eq_true hr0⟩

/-- A batch that reports a nonzero rows-affected count strictly decreases
the number of pending rows — the termination measure of the backfill
loop. -/
lemma pending_lt_of_rowsMatched_ne_zero {st : Strategy} {bs : Nat} {t : List Row}
    (h : rowsMatched st t (selectBatch st bs t) ≠ 0) :
    pendingCount (applyBatch st t (selectBatch st bs t)) < pendingCount t := by
  rw [pendingCount_applyBatch]
  obtain ⟨p, hpT, hpPend, hpSel⟩ := exists_pending_selected h
  exact countP_and_not_lt needsBackfill
    (fun r => decide (rowId st r ∈ selectBatch st bs t))
    t p hpT hpPend (decide_eq_true hpSel)

/-! ### Events and the execution adapter (helper.go lines 20-63) -/

/-- The phase statements of the orchestrator (the backfill batch statement
is evented separately, carrying its rows-affected count). -/
inductive Phase where
  | addColumn
  | installTrigger
  | teardown
  | swap
deriving Repr, DecidableEq

/-- One observable step of a run: a statement executed against the
database, a backfill batch executed (with its rows-affected count), a
statement printed instead of executed (dry-run), the representative batch
statement printed (dry-run), an EXPLAIN query sent (dry-run, read-only), a
fatal abort (log.Fatalf terminates the process), or an informational
output line. -/
inductive Event where
  | execStmt : Phase → Event
  | execBatch : Nat → Event
  | printStmt : Phase → Event
  | printBatch : Event
  | explainBatch : Event
  | fatal : String → Event
  | info : String → Event
deriving Repr, DecidableEq

/-- True for events that reach the database (an executed statement, an
executed batch, the read-only EXPLAIN query, or the failed statement of a
fatal abort); false for pure output lines and dry-run statement prints. -/
def isDbCall : Event → Bool
  | .execStmt _ => true
  | .execBatch _ => true
  | .explainBatch => true
  | .fatal _ => true
  | _ => false

/-- True for events that mutate the database: an executed phase statement
or an executed backfill batch. -/
def isMutation : Event → Bool
  | .execStmt _ => true
  | .execBatch _ => true
  | _ => false

/-- helper.go lines 27-42, execSQLWithOpts: in dry-run mode the statement
is printed, never executed; otherwise it is executed, with an extra timing
line when verbose. -/
def execSQLWithOpts (ph : Phase) (ctx : String) (dryRun verbose : Bool) :
    List Event :=
  if dryRun then [.info (ctx ++ " (dry-run)"), .printStmt ph]
  else if verbose then
    [.info (ctx ++ "..."), .execStmt ph, .info ("  done in <elapsed>")]
  else [.info (ctx ++ "..."), .execStmt ph]

/-! ### The backfill loop (migrate.go lines 50-114, live mode) -/

/-- migrate.go lines 100-109: the output of one live batch — the batch
statement execution itself, then the verbose progress line (always printed
when verbose) or the plain progress line (printed only for a productive
batch). -/
def batchEvents (verbose : Bool) (n : Nat) : List Event :=
  if verbose then
    [Event.execBatch n, Event.info ("  Batch updated " ++ toString n ++ " rows in <elapsed>")]
  else if 0 < n then
    [Event.execBatch n, Event.info ("  Backfilled " ++ toString n ++ " rows...")]
  else [Event.execBatch n]

/-- The live backfill loop of migrate.go: build one batch statement,
execute it, report progress (the verbose line always, the plain line only
for a productive batch), and stop as soon as a batch reports zero rows
affected.  Returns the events emitted, the table after the loop and the
rows-affected sequence.  Termination of the Go for-loop corresponds to the
well-founded recursion on the pending-row count (the 200 ms throttle sleep
between batches is not modelled). -/
def backfillLive (st : Strategy) (bs : Nat) (verbose : Bool) (t : List Row) :
    List Event × List Row × List Nat :=
  let sel := selectBatch st bs t
  let n := rowsMatched st t sel
  let t1 := applyBatch st t sel
  if h : n = 0 then (batchEvents verbose n, t1, [0])
  else
    have hlt : pendingCount t1 < pendingCount t := pending_lt_of_rowsMatched_ne_zero h
    let r := backfillLive st bs verbose t1
    (batchEvents verbose n ++ r.1, r.2.1, n :: r.2.2)
termination_by pendingCount t
decreasing_by exact hlt

/-! ### The orchestrator (migrate.go runMigration) -/

/-- The outcome of a run: the event trace, the final database state, the
rows-affected sequence of the executed backfill batches, and whether the
process survived (false when log.Fatalf aborted it mid-run). -/
structure RunOut where
  trace : List Event
  db : DbState
  seq : List Nat
  ok : Bool
deriving Repr, DecidableEq

/-- Effect of the add-shadow-column DDL: the shadow column is appended to
the column set and is NULL on every row. -/
def applyAddColumn (tempCol : String) (db : DbState) : DbState :=
  { db with columns := db.columns ++ [tempCol],
            rows := db.rows.map fun r => { r with shadow := none } }

/-- Effect of the install-sync statement group. -/
def applyInstallTrigger (db : DbState) : DbState :=
  { db with triggerInstalled := true }

/-- Effect of the teardown statement group. -/
def applyTeardown (db : DbState) : DbState :=
  { db with triggerInstalled := false }

/-- Effect of the swap statement group: the source column is dropped, the
shadow column is renamed to the source column's name; each row's value
under the original name is afterwards the value the shadow column held. -/
def applySwap (plan : MigrationPlan) (db : DbState) : DbState :=
  { db with
      columns := (db.columns.erase plan.column).map
        (fun c => if c = tempColumn plan then plan.column else c),
      rows := db.rows.map fun r => { r with source := r.shadow, shadow := none } }

/-- migrate.go lines 14-23, step 1: the add-shadow-column transition emits
its DDL only when the shadow column is absent; otherwise it prints a skip
notice and emits nothing. -/
def addPhaseEvents (plan : MigrationPlan) (db : DbState) : List Event :=
  if tempColumn plan ∈ db.columns then
    [Event.info ("Temp column already exists, skipping add.")]
  else execSQLWithOpts .addColumn ("Adding new column") plan.dryRun plan.verbose

/-- The database state after step 1. -/
def addPhaseDb (plan : MigrationPlan) (db : DbState) : DbState :=
  if tempColumn plan ∈ db.columns then db
  else if plan.dryRun then db
  else applyAddColumn (tempColumn plan) db

/-- migrate.go lines 92-98: the dry-run body of the backfill loop — print
the representative batch statement, send the EXPLAIN query, and break
after this single iteration. -/
def dryRunLoopEvents : List Event :=
  [Event.info ("→ Backfill batch (dry-run)"), Event.printBatch,
    Event.info ("  EXPLAIN plan:"), Event.explainBatch]

/-- Context string of the install-sync step (migrate.go line 46). -/
def trgCtx : String := "Creating trigger for real-time sync"

/-- Context string of the teardown step (migrate.go line 123). -/
def tdCtx : String := "Dropping trigger and function"

/-- Context string of the swap step (migrate.go line 132). -/
def swCtx : String := "Swapping columns"

/-- The backfill-phase announcement line (migrate.go line 49). -/
def loopHeader : Event := Event.info ("→ Backfilling data in batches...")

/-- The success line (migrate.go line 134). -/
def doneLine : Event := Event.info ("Migration completed successfully.")

/-- migrate.go lines 25-136, steps 2-5: trigger installation, the backfill
loop, teardown and swap, starting from the state the add phase produced.
In live mode a negative batch size makes the first batch statement fail
(LIMIT must not be negative), which checkFatal turns into a fatal abort
before teardown or swap can run. -/
def runFromTrigger (plan : MigrationPlan) (db1 : DbState) : RunOut :=
  let e2 := execSQLWithOpts .installTrigger trgCtx plan.dryRun plan.verbose
  let db2 := if plan.dryRun then db1 else applyInstallTrigger db1
  if plan.dryRun then
    { trace := e2 ++ loopHeader :: dryRunLoopEvents ++
        execSQLWithOpts .teardown tdCtx true plan.verbose ++
        execSQLWithOpts .swap swCtx true plan.verbose ++ [doneLine],
      db := db2, seq := [], ok := true }
  else if plan.batchSize < 0 then
    { trace := e2 ++ [loopHeader, Event.fatal ("Batch update")],
      db := db2, seq := [], ok := false }
  else
    let lr := backfillLive (strategyOf plan) plan.batchSize.toNat plan.verbose db2.rows
    let db3 : DbState := { db2 with rows := lr.2.1 }
    { trace := e2 ++ loopHeader :: lr.1 ++
        execSQLWithOpts .teardown tdCtx false plan.verbose ++
        execSQLWithOpts .swap swCtx false plan.verbose ++ [doneLine],
      db := applySwap plan (applyTeardown db3), seq := lr.2.2, ok := true }

/-- migrate.go lines 9-136, runMigration: step 1 followed by steps 2-5. -/
def runMigration (plan : MigrationPlan) (db : DbState) : RunOut :=
  let r := runFromTrigger plan (addPhaseDb plan db)
  { r with trace := addPhaseEvents plan db ++ r.trace }

/-- The rows-affected sequence the backfill loop produces, as a function
of the batch size and the initial pending-row count alone (valid for
tables whose row identities are distinct): full batches of size bs, a
final short batch, then the terminating zero batch. -/
def batchSeqSpec (bs : Nat) (p : Nat) : List Nat :=
  if bs = 0 ∨ p = 0 then [0]
  else min bs p :: batchSeqSpec bs (p - min bs p)
termination_by p
decreasing_by
  rename_i h
  rcases Nat.eq_zero_or_pos bs with hb | hb
  · exact absurd (Or.inl hb) h
  rcases Nat.eq_zero_or_pos p with hp | hp
  · exact absurd (Or.inr hp) h
  omega

/-! ### Concrete scenario inputs -/

/-- A catalog oracle on which every preflight check succeeds and the
pending-count estimate is available. -/
def allOkCatalog : CatalogDb :=
  ⟨.yes, .yes, fun _ => true, .yes, .yes, some 2⟩

/-- The live migration plan of the end-to-end scenario: users.age to
bigint, batch size 1000, ordering column id. -/
def livePlan : MigrationPlan :=
  ⟨"public", "users", "age", "bigint", 1000, "id", false, false⟩

/-- The same plan with batch size 0 (accepted by every input check — see
the C1 analysis). -/
def zeroBatchPlan : MigrationPlan :=
  ⟨"public", "users", "age", "bigint", 0, "id", false, false⟩

/-- The same plan in dry-run mode. -/
def dryPlan : MigrationPlan :=
  ⟨"public", "users", "age", "bigint", 1000, "id", true, false⟩

/-- A users(id, age) table with two rows awaiting backfill and no shadow
column yet. -/
def twoRowDb : DbState :=
  ⟨["id", "age"], [⟨1, 1, some 30, none⟩, ⟨2, 2, some 40, none⟩], false⟩

/-- A users table on which the shadow column already exists (a resumed
run), with one row still awaiting backfill. -/
def resumeDb : DbState :=
  ⟨["id", "age", "age_new"], [⟨1, 1, some 30, none⟩], false⟩

/-- The 2500-row table of the end-to-end scenario: ascending ids, age
non-null everywhere, shadow column values all NULL. -/
def demoRows : List Row :=
  (List.range 2500).map (fun i => ⟨i, i, some (Int.ofNat i), none⟩)

/-! ### Basic batch lemmas -/

lemma selectBatch_length (st : Strategy) (bs : Nat) (t : List Row) :
    (selectBatch st bs t).length = min bs (pendingCount t) := by
  cases st <;>
    simp [selectBatch, List.length_map, List.length_take, List.length_mergeSort,
      pendingCount, List.countP_eq_length_filter]

lemma selectBatch_zero (st : Strategy) (t : List Row) :
    selectBatch st 0 t = [] := by
  cases st <;> simp [selectBatch]

lemma applyBatch_nil (st : Strategy) (t : List Row) :
    applyBatch st t [] = t := by
  simp [applyBatch]

lemma rowsMatched_nil (st : Strategy) (t : List Row) :
    rowsMatched st t [] = 0 := by
  simp [rowsMatched]

lemma pendingCount_applyBatch_le (st : Strategy) (t : List Row) (sel : List Nat) :
    pendingCount (applyBatch st t sel) ≤ pendingCount t := by
  rw [pendingCount_applyBatch]
  exact List.countP_mono_left (by intro r _ h; exact Bool.and_elim_left h)

/-- With a positive batch size, a batch over a table that still has
pending rows always matches at least one row. -/
lemma rowsMatched_ne_zero_of_pending {st : Strategy} {bs : Nat} {t : List Row}
    (hbs : 1 ≤ bs) (hp : pendingCount t ≠ 0) :
    rowsMatched st t (selectBatch st bs t) ≠ 0 := by
  have hlen : (selectBatch st bs t).length ≠ 0 := by
    rw [selectBatch_length]
    rcases Nat.eq_zero_or_pos (pendingCount t) with h | h
    · exact absurd h hp
    · omega
  obtain ⟨k, hk⟩ := List.exists_mem_of_ne_nil (selectBatch st bs t) (by
    intro hnil
    rw [hnil] at hlen
    exact hlen rfl)
  obtain ⟨p, hpT, hpPend, hpId⟩ := selectBatch_sound hk
  have : 0 < t.countP (fun r => decide (rowId st r ∈ selectBatch st bs t)) :=
    List.countP_pos_iff.mpr ⟨p, hpT, decide_eq_true (hpId ▸ hk)⟩
  exact Nat.pos_iff_ne_zero.mp this

/-! ### Backfill loop lemmas -/

lemma batchEvents_profile (v : Bool) (n : Nat) :
    ∀ e ∈ batchEvents v n, e = Event.execBatch n ∨ ∃ s, e = Event.info s := by
  intro e he
  unfold batchEvents at he
  split at he
  · simp only [List.mem_cons, List.not_mem_nil, or_false] at he
    rcases he with h | h
    · exact Or.inl h
    · exact Or.inr ⟨_, h⟩
  split at he
  · simp only [List.mem_cons, List.not_mem_nil, or_false] at he
    rcases he with h | h
    · exact Or.inl h
    · exact Or.inr ⟨_, h⟩
  · simp only [List.mem_singleton] at he
    exact Or.inl he

lemma execBatch_mem_batchEvents (v : Bool) (n : Nat) :
    Event.execBatch n ∈ batchEvents v n := by
  unfold batchEvents
  split
  · exact List.mem_cons_self _ _
  split
  · exact List.mem_cons_self _ _
  · exact List.mem_cons_self _ _

lemma filter_isDbCall_batchEvents (v : Bool) (n : Nat) :
    (batchEvents v n).filter isDbCall = [Event.execBatch n] := by
  unfold batchEvents
  split
  · simp [isDbCall]
  split <;> simp [isDbCall]

/-- One-step unfolding of the loop when the batch reports zero rows. -/
lemma backfillLive_eq_zero {st : Strategy} {bs : Nat} {v : Bool} {t : List Row}
    (hn : rowsMatched st t (selectBatch st bs t) = 0) :
    backfillLive st bs v t
      = (batchEvents v 0, applyBatch st t (selectBatch st bs t), [0]) := by
  rw [backfillLive.eq_def]
  simp [hn]

/-- One-step unfolding of the loop on a productive batch. -/
lemma backfillLive_eq_pos {st : Strategy} {bs : Nat} {v : Bool} {t : List Row}
    (hn : rowsMatched st t (selectBatch st bs t) ≠ 0) :
    backfillLive st bs v t
      = (batchEvents v (rowsMatched st t (selectBatch st bs t)) ++
           (backfillLive st bs v (applyBatch st t (selectBatch st bs t))).1,
         (backfillLive st bs v (applyBatch st t (selectBatch st bs t))).2.1,
         rowsMatched st t (selectBatch st bs t) ::
           (backfillLive st bs v (applyBatch st t (selectBatch st bs t))).2.2) := by
  rw [backfillLive.eq_def]
  simp only [dif_neg hn]

lemma backfillLive_events {st : Strategy} {bs : Nat} {v : Bool} (t : List Row) :
    ∀ e ∈ (backfillLive st bs v t).1,
      (∃ n, e = Event.execBatch n) ∨ ∃ s, e = Event.info s := by
  induction t using backfillLive.induct st bs v with
  | case1 t sel n hn =>
    rw [backfillLive_eq_zero hn]
    intro e he
    rcases batchEvents_profile v _ e he with h | h
    · exact Or.inl ⟨_, h⟩
    · exact Or.inr h
  | case2 t sel n t1 hn hlt ih =>
    rw [backfillLive_eq_pos hn]
    intro e he
    rcases List.mem_append.mp he with h | h
    · rcases batchEvents_profile v _ e h with h2 | h2
      · exact Or.inl ⟨_, h2⟩
      · exact Or.inr h2
    · exact ih e h

lemma execBatch_zero_mem (st : Strategy) (bs : Nat) (v : Bool) (t : List Row) :
    Event.execBatch 0 ∈ (backfillLive st bs v t).1 := by
  induction t using backfillLive.induct st bs v with
  | case1 t sel n hn =>
    rw [backfillLive_eq_zero hn]
    exact execBatch_mem_batchEvents v 0
  | case2 t sel n t1 hn hlt ih =>
    rw [backfillLive_eq_pos hn]
    exact List.mem_append.mpr (Or.inr ih)

/-- The rows-affected sequence is a run of productive batches followed by
the terminating zero batch. -/
lemma backfillLive_seq_shape (st : Strategy) (bs : Nat) (v : Bool) (t : List Row) :
    ∃ pre, (backfillLive st bs v t).2.2 = pre ++ [0] ∧ ∀ x ∈ pre, 0 < x := by
  induction t using backfillLive.induct st bs v with
  | case1 t sel n hn =>
    rw [backfillLive_eq_zero hn]
    exact ⟨[], rfl, by simp⟩
  | case2 t sel n t1 hn hlt ih =>
    rw [backfillLive_eq_pos hn]
    obtain ⟨pre, hpre, hpos⟩ := ih
    refine ⟨rowsMatched st t (selectBatch st bs t) :: pre, by simp [hpre], ?_⟩
    intro x hx
    rcases List.mem_cons.mp hx with h | h
    · subst h; exact Nat.pos_of_ne_zero hn
    · exact hpos x h

/-- With a positive batch size the loop converges: no pending rows remain
when it exits. -/
lemma backfillLive_pending_zero {st : Strategy} {bs : Nat} {v : Bool}
    (hbs : 1 ≤ bs) (t : List Row) :
    pendingCount (backfillLive st bs v t).2.1 = 0 := by
  induction t using backfillLive.induct st bs v with
  | case1 t sel n hn =>
    rw [backfillLive_eq_zero hn]
    have hp : pendingCount t = 0 := by
      by_contra hp
      exact rowsMatched_ne_zero_of_pending hbs hp hn
    have hle := pendingCount_applyBatch_le st t (selectBatch st bs t)
    show pendingCount (applyBatch st t (selectBatch st bs t)) = 0
    omega
  | case2 t sel n t1 hn hlt ih =>
    rw [backfillLive_eq_pos hn]
    exact ih

/-- The loop runs at most pending + 1 batches. -/
lemma backfillLive_seq_length {st : Strategy} {bs : Nat} {v : Bool}
    (t : List Row) :
    (backfillLive st bs v t).2.2.length ≤ pendingCount t + 1 := by
  induction t using backfillLive.induct st bs v with
  | case1 t sel n hn =>
    rw [backfillLive_eq_zero hn]
    simp
  | case2 t sel n t1 hn hlt ih =>
    rw [backfillLive_eq_pos hn]
    have hlt2 : pendingCount (applyBatch st t (selectBatch st bs t)) < pendingCount t := hlt
    have ih2 : (backfillLive st bs v (applyBatch st t (selectBatch st bs t))).2.2.length
        ≤ pendingCount (applyBatch st t (selectBatch st bs t)) + 1 := ih
    show (rowsMatched st t (selectBatch st bs t) ::
      (backfillLive st bs v (applyBatch st t (selectBatch st bs t))).2.2).length
        ≤ pendingCount t + 1
    simp only [List.length_cons]
    omega

lemma applyBatch_rows (st : Strategy) (t : List Row) (sel : List Nat) :
    (applyBatch st t sel).length = t.length ∧
    ∀ (i : Nat) (r r' : Row), t[i]? = some r → (applyBatch st t sel)[i]? = some r' →
      r'.source = r.source ∧ r'.key = r.key ∧ r'.ctid = r.ctid ∧
      (r'.shadow = r.shadow ∨ r'.shadow = r.source) := by
  constructor
  · simp [applyBatch]
  · intro i r r' hr hr'
    simp only [applyBatch, List.getElem?_map, hr, Option.map_some', Option.some.injEq] at hr'
    by_cases h : rowId st r ∈ sel
    · rw [if_pos h] at hr'
      subst hr'
      simp
    · rw [if_neg h] at hr'
      subst hr'
      simp

lemma backfillLive_rows (st : Strategy) (bs : Nat) (v : Bool) (t : List Row) :
    (backfillLive st bs v t).2.1.length = t.length ∧
    ∀ (i : Nat) (r r' : Row), t[i]? = some r → (backfillLive st bs v t).2.1[i]? = some r' →
      r'.source = r.source ∧ r'.key = r.key ∧ r'.ctid = r.ctid ∧
      (r'.shadow = r.shadow ∨ r'.shadow = r.source) := by
  induction t using backfillLive.induct st bs v with
  | case1 t sel n hn =>
    rw [backfillLive_eq_zero hn]
    exact applyBatch_rows st t (selectBatch st bs t)
  | case2 t sel n t1 hn hlt ih =>
    rw [backfillLive_eq_pos hn]
    have ihlen : (backfillLive st bs v (applyBatch st t (selectBatch st bs t))).2.1.length
        = (applyBatch st t (selectBatch st bs t)).length := ih.1
    have ihrel : ∀ (i : Nat) (r r' : Row),
        (applyBatch st t (selectBatch st bs t))[i]? = some r →
        (backfillLive st bs v (applyBatch st t (selectBatch st bs t))).2.1[i]? = some r' →
        r'.source = r.source ∧ r'.key = r.key ∧ r'.ctid = r.ctid ∧
        (r'.shadow = r.shadow ∨ r'.shadow = r.source) := ih.2
    obtain ⟨ablen, abrel⟩ := applyBatch_rows st t (selectBatch st bs t)
    constructor
    · show (backfillLive st bs v (applyBatch st t (selectBatch st bs t))).2.1.length = t.length
      rw [ihlen, ablen]
    · show ∀ (i : Nat) (r r' : Row), t[i]? = some r →
        (backfillLive st bs v (applyBatch st t (selectBatch st bs t))).2.1[i]? = some r' →
        r'.source = r.source ∧ r'.key = r.key ∧ r'.ctid = r.ctid ∧
        (r'.shadow = r.shadow ∨ r'.shadow = r.source)
      intro i r r' hr hr'
      have hi0 := (List.getElem?_eq_some.mp hr').1
      have hi : i < (applyBatch st t (selectBatch st bs t)).length := by
        rw [ihlen] at hi0
        exact hi0
      have hrm := List.getElem?_eq_getElem hi
      obtain ⟨hs1, hk1, hc1, hsh1⟩ := abrel i r _ hr hrm
      obtain ⟨hs2, hk2, hc2, hsh2⟩ := ihrel i _ r' hrm hr'
      refine ⟨hs2.trans hs1, hk2.trans hk1, hc2.trans hc1, ?_⟩
      rcases hsh2 with h2 | h2
      · rcases hsh1 with h1 | h1
        · exact Or.inl (h2.trans h1)
        · exact Or.inr (h2.trans h1)
      · exact Or.inr (h2.trans hs1)

/-- The verbose flag changes only informational output: the database calls
made by the loop, the table it produces and its rows-affected sequence are
identical for any two verbosity settings. -/
lemma backfillLive_verbose (st : Strategy) (bs : Nat) (v : Bool) (t : List Row) :
    (backfillLive st bs v t).2 = (backfillLive st bs false t).2 ∧
    (backfillLive st bs v t).1.filter isDbCall
      = (backfillLive st bs false t).1.filter isDbCall := by
  induction t using backfillLive.induct st bs v with
  | case1 t sel n hn =>
    rw [@backfillLive_eq_zero st bs v t hn, @backfillLive_eq_zero st bs false t hn]
    exact ⟨rfl, by rw [filter_isDbCall_batchEvents, filter_isDbCall_batchEvents]⟩
  | case2 t sel n t1 hn hlt ih =>
    rw [@backfillLive_eq_pos st bs v t hn, @backfillLive_eq_pos st bs false t hn]
    obtain ⟨ih2, ih1⟩ := ih
    constructor
    · simp only [Prod.mk.injEq]
      exact ⟨congrArg Prod.fst ih2, by rw [congrArg Prod.snd ih2]⟩
    · simp only [List.filter_append]
      rw [filter_isDbCall_batchEvents, filter_isDbCall_batchEvents, ih1]

/-- With batch size zero the first batch selects no rows, reports zero
rows affected, and the loop exits immediately with the table unchanged. -/
lemma backfillLive_zero_bs (st : Strategy) (v : Bool) (t : List Row) :
    backfillLive st 0 v t = (batchEvents v 0, t, [0]) := by
  have hn : rowsMatched st t (selectBatch st 0 t) = 0 := by
    rw [selectBatch_zero, rowsMatched_nil]
  rw [backfillLive_eq_zero hn, selectBatch_zero, applyBatch_nil]

/-! ### Exact batch accounting for tables with distinct row identities -/

lemma countP_mem_ids {α : Type} (f : α → Nat) :
    ∀ (t : List α) (ids : List Nat), (t.map f).Nodup → ids.Nodup →
      (∀ k ∈ ids, k ∈ t.map f) →
      t.countP (fun r => decide (f r ∈ ids)) = ids.length := by
  intro t
  induction t with
  | nil =>
    intro ids _ _ hsub
    have hnil : ids = [] := by
      apply List.eq_nil_iff_forall_not_mem.mpr
      intro k hk
      have := hsub k hk
      simp at this
    rw [hnil]
    rfl
  | cons a t ih =>
    intro ids hN hids hsub
    rw [List.map_cons, List.nodup_cons] at hN
    obtain ⟨ha, hN⟩ := hN
    rw [List.countP_cons]
    by_cases h : f a ∈ ids
    · have hcong : t.countP (fun r => decide (f r ∈ ids))
          = t.countP (fun r => decide (f r ∈ ids.erase (f a))) := by
        apply List.countP_congr
        intro x hx
        have hfx : f x ≠ f a := fun he => ha (he ▸ List.mem_map_of_mem f hx)
        simp only [decide_eq_true_eq]
        exact (List.mem_erase_of_ne hfx).symm
      have hsub2 : ∀ k ∈ ids.erase (f a), k ∈ t.map f := by
        intro k hk
        obtain ⟨hk1, hk2⟩ := (hids.mem_erase_iff).mp hk
        have h4 : k ∈ f a :: t.map f := by
          rw [← List.map_cons]
          exact hsub k hk2
        rcases List.mem_cons.mp h4 with h3 | h3
        · exact absurd h3 hk1
        · exact h3
      have hrec := ih (ids.erase (f a)) hN (hids.erase (f a)) hsub2
      rw [hcong, hrec, List.length_erase_of_mem h]
      have hpos : 0 < ids.length := List.length_pos_of_mem h
      simp [h]
      omega
    · have hsub2 : ∀ k ∈ ids, k ∈ t.map f := by
        intro k hk
        have h4 : k ∈ f a :: t.map f := by
          rw [← List.map_cons]
          exact hsub k hk
        rcases List.mem_cons.mp h4 with h3 | h3
        · exact absurd (h3 ▸ hk) h
        · exact h3
      rw [ih ids hN hids hsub2]
      simp [h]

lemma map_rowId_keyed (t : List Row) :
    t.map (rowId .keyed) = t.map Row.key :=
  List.map_congr_left (fun r _ => rfl)

lemma map_rowId_ctid (t : List Row) :
    t.map (rowId .ctidFallback) = t.map Row.ctid :=
  List.map_congr_left (fun r _ => rfl)

lemma selectBatch_nodup (st : Strategy) (bs : Nat) (t : List Row)
    (h : (t.map (rowId st)).Nodup) : (selectBatch st bs t).Nodup := by
  cases st with
  | keyed =>
    rw [map_rowId_keyed] at h
    have nf : ((t.filter needsBackfill).map Row.key).Nodup :=
      ((List.filter_sublist t).map Row.key).nodup h
    have ns : (((t.filter needsBackfill).mergeSort
        (fun a b => a.key ≤ b.key)).map Row.key).Nodup :=
      (((List.mergeSort_perm (t.filter needsBackfill) _).map Row.key).symm).nodup nf
    exact ((((t.filter needsBackfill).mergeSort
      (fun a b => a.key ≤ b.key)).take_sublist bs).map Row.key).nodup ns
  | ctidFallback =>
    rw [map_rowId_ctid] at h
    have nf : ((t.filter needsBackfill).map Row.ctid).Nodup :=
      ((List.filter_sublist t).map Row.ctid).nodup h
    exact (((t.filter needsBackfill).take_sublist bs).map Row.ctid).nodup nf

lemma selectBatch_sub_ids (st : Strategy) (bs : Nat) (t : List Row) :
    ∀ k ∈ selectBatch st bs t, k ∈ t.map (rowId st) := by
  intro k hk
  obtain ⟨p, hpT, _, hpId⟩ := selectBatch_sound hk
  exact hpId ▸ List.mem_map_of_mem _ hpT

/-- With distinct row identities, each batch affects exactly
min(batchSize, pending) rows. -/
lemma rowsMatched_eq_min (st : Strategy) (bs : Nat) (t : List Row)
    (h : (t.map (rowId st)).Nodup) :
    rowsMatched st t (selectBatch st bs t) = min bs (pendingCount t) := by
  rw [rowsMatched,
    countP_mem_ids (rowId st) t (selectBatch st bs t) h
      (selectBatch_nodup st bs t h) (selectBatch_sub_ids st bs t),
    selectBatch_length]

lemma selected_pending (st : Strategy) (bs : Nat) (t : List Row)
    (h : (t.map (rowId st)).Nodup) :
    ∀ r ∈ t, rowId st r ∈ selectBatch st bs t → needsBackfill r = true := by
  intro r hr hsel
  obtain ⟨p, hpT, hpPend, hpId⟩ := selectBatch_sound hsel
  have hpr : p = r := List.inj_on_of_nodup_map h hpT hr hpId
  exact hpr ▸ hpPend

/-- With distinct row identities, each batch reduces the pending count by
exactly the rows-affected count. -/
lemma pendingCount_after_batch (st : Strategy) (bs : Nat) (t : List Row)
    (h : (t.map (rowId st)).Nodup) :
    pendingCount (applyBatch st t (selectBatch st bs t))
      = pendingCount t - min bs (pendingCount t) := by
  rw [pendingCount_applyBatch]
  have hsplit := countP_and_not_add needsBackfill
    (fun r => decide (rowId st r ∈ selectBatch st bs t)) t
  have hpe : t.countP (fun r => needsBackfill r && decide (rowId st r ∈ selectBatch st bs t))
      = t.countP (fun r => decide (rowId st r ∈ selectBatch st bs t)) := by
    apply List.countP_congr
    intro r hr
    simp only [Bool.and_eq_true, decide_eq_true_eq]
    constructor
    · exact fun hx => hx.2
    · intro hx
      exact ⟨selected_pending st bs t h r hr hx, hx⟩
  have hmin := rowsMatched_eq_min st bs t h
  rw [rowsMatched] at hmin
  have hp : pendingCount t = t.countP needsBackfill := rfl
  omega

lemma applyBatch_map_rowId (st st' : Strategy) (t : List Row) (sel : List Nat) :
    (applyBatch st t sel).map (rowId st') = t.map (rowId st') := by
  rw [applyBatch, List.map_map]
  apply List.map_congr_left
  intro r _
  by_cases h : rowId st r ∈ sel <;> simp only [Function.comp_apply, h, if_pos, if_neg,
    not_false_iff, if_true, if_false] <;> cases st' <;> rfl

lemma batchSeqSpec_zero {bs p : Nat} (h : bs = 0 ∨ p = 0) :
    batchSeqSpec bs p = [0] := by
  rw [batchSeqSpec.eq_def, if_pos h]

lemma batchSeqSpec_pos {bs p : Nat} (hbs : bs ≠ 0) (hp : p ≠ 0) :
    batchSeqSpec bs p = min bs p :: batchSeqSpec bs (p - min bs p) := by
  rw [batchSeqSpec.eq_def, if_neg (by tauto)]

/-- With distinct row identities, the rows-affected sequence of the loop
is determined by the batch size and the initial pending count. -/
lemma backfillLive_seq_eq (st : Strategy) (bs : Nat) (v : Bool) :
    ∀ t : List Row, (t.map (rowId st)).Nodup →
      (backfillLive st bs v t).2.2 = batchSeqSpec bs (pendingCount t) := by
  intro t
  induction t using backfillLive.induct st bs v with
  | case1 t sel n hn =>
    intro h
    rw [backfillLive_eq_zero hn]
    have hmin : min bs (pendingCount t) = 0 := by
      rw [← rowsMatched_eq_min st bs t h]
      exact hn
    show [0] = batchSeqSpec bs (pendingCount t)
    rw [batchSeqSpec_zero (Nat.min_eq_zero_iff.mp hmin)]
  | case2 t sel n t1 hn hlt ih =>
    intro h
    rw [backfillLive_eq_pos hn]
    have hmin := rowsMatched_eq_min st bs t h
    have hmz : min bs (pendingCount t) ≠ 0 := fun hz => hn (hmin.trans hz)
    have hnz : bs ≠ 0 ∧ pendingCount t ≠ 0 := by
      rcases Nat.eq_zero_or_pos bs with hb | hb
      · exact absurd (by simp [hb]) hmz
      rcases Nat.eq_zero_or_pos (pendingCount t) with hp | hp
      · exact absurd (by simp [hp]) hmz
      omega
    have h1 : ((applyBatch st t (selectBatch st bs t)).map (rowId st)).Nodup := by
      rw [applyBatch_map_rowId]
      exact h
    have htail := ih h1
    have hpend := pendingCount_after_batch st bs t h
    show rowsMatched st t (selectBatch st bs t) ::
        (backfillLive st bs v (applyBatch st t (selectBatch st bs t))).2.2
      = batchSeqSpec bs (pendingCount t)
    rw [batchSeqSpec_pos hnz.1 hnz.2, htail, hpend, hmin]

/-- The rows-affected sequence of the end-to-end scenario: 2500 pending
rows, batch size 1000. -/
lemma batchSeqSpec_eval : batchSeqSpec 1000 2500 = [1000, 1000, 500, 0] := by
  rw [batchSeqSpec_pos (by norm_num) (by norm_num)]
  norm_num
  rw [batchSeqSpec_pos (by norm_num) (by norm_num)]
  norm_num
  rw [batchSeqSpec_pos (by norm_num) (by norm_num)]
  norm_num
  rw [batchSeqSpec_zero (by norm_num)]

/-! ### Trace position lemmas -/

lemma mem_of_getElemQ {α : Type} {l : List α} {j : Nat} {e : α}
    (hj : l[j]? = some e) : e ∈ l := by
  obtain ⟨h, rfl⟩ := List.getElem?_eq_some.mp hj
  exact List.getElem_mem h

/-- In X ++ x :: Y, when no P-event occurs in X and x is not a P-event,
every P-event has x strictly before it. -/
lemma before_split {α : Type} {P : α → Prop} (X Y : List α) (x : α)
    (hX : ∀ e ∈ X, ¬ P e) (hx : ¬ P x) :
    ∀ (j : Nat) (e : α), (X ++ x :: Y)[j]? = some e → P e →
      ∃ i < j, (X ++ x :: Y)[i]? = some x := by
  intro j e hj hP
  have hxpos : (X ++ x :: Y)[X.length]? = some x := by
    rw [List.getElem?_append_right (le_refl X.length)]
    simp
  refine ⟨X.length, ?_, hxpos⟩
  rcases Nat.lt_or_ge j X.length with hj2 | hj2
  · rw [List.getElem?_append, if_pos hj2] at hj
    exact absurd hP (hX e (mem_of_getElemQ hj))
  · rcases Nat.lt_or_ge X.length j with hj3 | hj3
    · exact hj3
    · have hje : j = X.length := le_antisymm hj3 hj2
      subst hje
      rw [hxpos] at hj
      cases hj
      exact absurd hP hx

/-- In X ++ Y, when no P-event occurs in X but a Q-event x does, every
P-event has x strictly before it. -/
lemma after_split {α : Type} {P : α → Prop} (X Y : List α) (x : α)
    (hX : ∀ e ∈ X, ¬ P e) (hx : x ∈ X) :
    ∀ (j : Nat) (e : α), (X ++ Y)[j]? = some e → P e →
      ∃ i < j, (X ++ Y)[i]? = some x := by
  intro j e hj hP
  obtain ⟨i, hix⟩ := List.mem_iff_getElem?.mp hx
  have hiX : i < X.length := (List.getElem?_eq_some.mp hix).1
  have hjX : X.length ≤ j := by
    by_contra hlt
    push_neg at hlt
    rw [List.getElem?_append, if_pos hlt] at hj
    exact hX e (mem_of_getElemQ hj) hP
  refine ⟨i, by omega, ?_⟩
  rw [List.getElem?_append, if_pos hiX]
  exact hix

/-- In X ++ Y, when Q-events occur only in Y and P-events only in X, every
P-event precedes every Q-event. -/
lemma sep_split {α : Type} {P Q : α → Prop} (X Y : List α)
    (hX : ∀ e ∈ X, ¬ Q e) (hY : ∀ e ∈ Y, ¬ P e) :
    ∀ (i j : Nat) (e f : α), (X ++ Y)[i]? = some e → P e →
      (X ++ Y)[j]? = some f → Q f → i < j := by
  intro i j e f hi hPe hj hQf
  have hiX : i < X.length := by
    by_contra hge
    push_neg at hge
    rw [List.getElem?_append, if_neg (by omega)] at hi
    exact hY e (mem_of_getElemQ hi) hPe
  have hjX : X.length ≤ j := by
    by_contra hlt
    push_neg at hlt
    rw [List.getElem?_append, if_pos hlt] at hj
    exact hX f (mem_of_getElemQ hj) hQf
  omega

/-! ### Segment profiles of the orchestrator trace -/

lemma execSQLWithOpts_profile (ph : Phase) (ctx : String) (dr v : Bool) :
    ∀ e ∈ execSQLWithOpts ph ctx dr v,
      e = Event.execStmt ph ∨ e = Event.printStmt ph ∨ ∃ s, e = Event.info s := by
  intro e he
  unfold execSQLWithOpts at he
  split at he
  · simp only [List.mem_cons, List.not_mem_nil, or_false] at he
    rcases he with h | h
    · exact Or.inr (Or.inr ⟨_, h⟩)
    · exact Or.inr (Or.inl h)
  split at he
  · simp only [List.mem_cons, List.not_mem_nil, or_false] at he
    rcases he with h | h | h
    · exact Or.inr (Or.inr ⟨_, h⟩)
    · exact Or.inl h
    · exact Or.inr (Or.inr ⟨_, h⟩)
  · simp only [List.mem_cons, List.not_mem_nil, or_false] at he
    rcases he with h | h
    · exact Or.inr (Or.inr ⟨_, h⟩)
    · exact Or.inl h

lemma execSQLWithOpts_live (ph : Phase) (ctx : String) (v : Bool) :
    execSQLWithOpts ph ctx false v
      = Event.info (ctx ++ "...") :: Event.execStmt ph ::
          (if v then [Event.info ("  done in <elapsed>")] else []) := by
  cases v <;> rfl

lemma execStmt_mem_execSQLWithOpts_live (ph : Phase) (ctx : String) (v : Bool) :
    Event.execStmt ph ∈ execSQLWithOpts ph ctx false v := by
  rw [execSQLWithOpts_live]
  exact List.mem_cons_of_mem _ (List.mem_cons_self _ _)

lemma filter_isDbCall_execSQLWithOpts (ph : Phase) (ctx : String) (dr v : Bool) :
    (execSQLWithOpts ph ctx dr v).filter isDbCall
      = if dr then [] else [Event.execStmt ph] := by
  cases dr <;> cases v <;> simp [execSQLWithOpts, isDbCall]

lemma addPhaseEvents_profile (plan : MigrationPlan) (db : DbState) :
    ∀ e ∈ addPhaseEvents plan db,
      e = Event.execStmt .addColumn ∨ e = Event.printStmt .addColumn ∨
        ∃ s, e = Event.info s := by
  intro e he
  unfold addPhaseEvents at he
  split at he
  · simp only [List.mem_singleton] at he
    exact Or.inr (Or.inr ⟨_, he⟩)
  · exact execSQLWithOpts_profile _ _ _ _ e he

lemma filter_isDbCall_addPhaseEvents (plan : MigrationPlan) (db : DbState) :
    (addPhaseEvents plan db).filter isDbCall
      = if tempColumn plan ∈ db.columns then []
        else if plan.dryRun then [] else [Event.execStmt .addColumn] := by
  unfold addPhaseEvents
  split
  · simp [isDbCall]
  · rw [filter_isDbCall_execSQLWithOpts]

/-! ### Branch equations of the orchestrator -/

lemma runMigration_trace (plan : MigrationPlan) (db : DbState) :
    (runMigration plan db).trace
      = addPhaseEvents plan db ++ (runFromTrigger plan (addPhaseDb plan db)).trace := rfl

lemma runMigration_db (plan : MigrationPlan) (db : DbState) :
    (runMigration plan db).db = (runFromTrigger plan (addPhaseDb plan db)).db := rfl

lemma runMigration_seq (plan : MigrationPlan) (db : DbState) :
    (runMigration plan db).seq = (runFromTrigger plan (addPhaseDb plan db)).seq := rfl

lemma runMigration_ok (plan : MigrationPlan) (db : DbState) :
    (runMigration plan db).ok = (runFromTrigger plan (addPhaseDb plan db)).ok := rfl

lemma runFromTrigger_eq_live (plan : MigrationPlan) (db1 : DbState)
    (h : plan.dryRun = false) (hbs : ¬ plan.batchSize < 0) :
    runFromTrigger plan db1 =
      { trace := execSQLWithOpts .installTrigger trgCtx false plan.verbose ++
          loopHeader :: (backfillLive (strategyOf plan) plan.batchSize.toNat
            plan.verbose db1.rows).1 ++
          execSQLWithOpts .teardown tdCtx false plan.verbose ++
          execSQLWithOpts .swap swCtx false plan.verbose ++ [doneLine],
        db := applySwap plan (applyTeardown
          { db1 with
              rows := (backfillLive (strategyOf plan) plan.batchSize.toNat
                plan.verbose db1.rows).2.1,
              triggerInstalled := true }),
        seq := (backfillLive (strategyOf plan) plan.batchSize.toNat
          plan.verbose db1.rows).2.2,
        ok := true } := by
  unfold runFromTrigger
  rw [h]
  simp only [Bool.false_eq_true, if_false, if_neg hbs]
  rfl

lemma runFromTrigger_eq_fatal (plan : MigrationPlan) (db1 : DbState)
    (h : plan.dryRun = false) (hbs : plan.batchSize < 0) :
    runFromTrigger plan db1 =
      { trace := execSQLWithOpts .installTrigger trgCtx false plan.verbose ++
          [loopHeader, Event.fatal ("Batch update")],
        db := applyInstallTrigger db1,
        seq := [], ok := false } := by
  unfold runFromTrigger
  rw [h]
  simp only [Bool.false_eq_true, if_false, if_pos hbs]

lemma runFromTrigger_eq_dry (plan : MigrationPlan) (db1 : DbState)
    (h : plan.dryRun = true) :
    runFromTrigger plan db1 =
      { trace := execSQLWithOpts .installTrigger trgCtx true plan.verbose ++
          loopHeader :: dryRunLoopEvents ++
          execSQLWithOpts .teardown tdCtx true plan.verbose ++
          execSQLWithOpts .swap swCtx true plan.verbose ++ [doneLine],
        db := db1, seq := [], ok := true } := by
  unfold runFromTrigger
  rw [h]
  simp only [if_true]

lemma addPhaseDb_dry (plan : MigrationPlan) (db : DbState)
    (h : plan.dryRun = true) : addPhaseDb plan db = db := by
  unfold addPhaseDb
  rw [h]
  split <;> rfl

/-! ### Negative event profiles of trace segments -/

lemma execSQLWithOpts_no_batch (ph : Phase) (ctx : String) (dr v : Bool) :
    ∀ e ∈ execSQLWithOpts ph ctx dr v, ∀ n : Nat, e ≠ Event.execBatch n := by
  intro e he n
  rcases execSQLWithOpts_profile ph ctx dr v e he with h | h | ⟨s, h⟩ <;> subst h <;> simp

lemma execSQLWithOpts_exec_only (ph : Phase) (ctx : String) (dr v : Bool) :
    ∀ e ∈ execSQLWithOpts ph ctx dr v, ∀ ph' : Phase,
      e = Event.execStmt ph' → ph' = ph := by
  intro e he ph' heq
  rcases execSQLWithOpts_profile ph ctx dr v e he with h | h | ⟨s, h⟩ <;>
    rw [heq] at h <;> simpa using h

lemma execSQLWithOpts_print_only (ph : Phase) (ctx : String) (dr v : Bool) :
    ∀ e ∈ execSQLWithOpts ph ctx dr v, ∀ ph' : Phase,
      e = Event.printStmt ph' → ph' = ph := by
  intro e he ph' heq
  rcases execSQLWithOpts_profile ph ctx dr v e he with h | h | ⟨s, h⟩ <;>
    rw [heq] at h <;> simpa using h

lemma addPhaseEvents_no (plan : MigrationPlan) (db : DbState) :
    ∀ e ∈ addPhaseEvents plan db, (∀ n : Nat, e ≠ Event.execBatch n) ∧
      e ≠ Event.execStmt .installTrigger ∧ e ≠ Event.execStmt .teardown ∧
      e ≠ Event.execStmt .swap := by
  intro e he
  rcases addPhaseEvents_profile plan db e he with h | h | ⟨s, h⟩ <;> subst h <;> simp

lemma backfillLive_no_exec (st : Strategy) (bs : Nat) (v : Bool) (t : List Row) :
    ∀ e ∈ (backfillLive st bs v t).1, ∀ p : Phase, e ≠ Event.execStmt p := by
  intro e he p
  rcases backfillLive_events t e he with ⟨n, h⟩ | ⟨s, h⟩ <;> subst h <;> simp

lemma dryRunLoopEvents_profile :
    ∀ e ∈ dryRunLoopEvents, (∀ p : Phase, e ≠ Event.execStmt p ∧ e ≠ Event.printStmt p) ∧
      (∀ n : Nat, e ≠ Event.execBatch n) := by
  intro e he
  simp only [dryRunLoopEvents, List.mem_cons, List.not_mem_nil, or_false] at he
  rcases he with h | h | h | h <;> subst h <;> simp

lemma execSQLWithOpts_no_addColumn (ph : Phase) (hph : ph ≠ Phase.addColumn)
    (ctx : String) (dr v : Bool) :
    ∀ e ∈ execSQLWithOpts ph ctx dr v,
      e ≠ Event.execStmt .addColumn ∧ e ≠ Event.printStmt .addColumn := by
  intro e he
  constructor
  · intro hx
    exact hph (execSQLWithOpts_exec_only ph ctx dr v e he _ hx).symm
  · intro hx
    exact hph (execSQLWithOpts_print_only ph ctx dr v e he _ hx).symm

/-- Steps 2-5 never emit (nor print) the add-shadow-column DDL. -/
lemma runFromTrigger_no_addColumn (plan : MigrationPlan) (db1 : DbState) :
    ∀ e ∈ (runFromTrigger plan db1).trace,
      e ≠ Event.execStmt .addColumn ∧ e ≠ Event.printStmt .addColumn := by
  intro e he
  cases hd : plan.dryRun with
  | true =>
    rw [runFromTrigger_eq_dry plan db1 hd] at he
    simp only [List.append_assoc, List.cons_append, List.mem_append, List.mem_cons,
      List.mem_singleton, List.not_mem_nil, or_false] at he
    rcases he with h | h | h | h | h | h
    · exact execSQLWithOpts_no_addColumn _ (by simp) _ _ _ e h
    · subst h; simp [loopHeader]
    · obtain ⟨hne, _⟩ := dryRunLoopEvents_profile e h
      exact ⟨(hne .addColumn).1, (hne .addColumn).2⟩
    · exact execSQLWithOpts_no_addColumn _ (by simp) _ _ _ e h
    · exact execSQLWithOpts_no_addColumn _ (by simp) _ _ _ e h
    · subst h; simp [doneLine]
  | false =>
    by_cases hbs : plan.batchSize < 0
    · rw [runFromTrigger_eq_fatal plan db1 hd hbs] at he
      simp only [List.mem_append, List.mem_cons, List.mem_singleton,
        List.not_mem_nil, or_false] at he
      rcases he with h | h | h
      · exact execSQLWithOpts_no_addColumn _ (by simp) _ _ _ e h
      · subst h; simp [loopHeader]
      · subst h; simp
    · rw [runFromTrigger_eq_live plan db1 hd hbs] at he
      simp only [List.append_assoc, List.cons_append, List.mem_append, List.mem_cons,
        List.mem_singleton, List.not_mem_nil, or_false] at he
      rcases he with h | h | h | h | h | h
      · exact execSQLWithOpts_no_addColumn _ (by simp) _ _ _ e h
      · subst h; simp [loopHeader]
      · rcases backfillLive_events _ e h with ⟨n, h2⟩ | ⟨s, h2⟩ <;> subst h2 <;> simp
      · exact execSQLWithOpts_no_addColumn _ (by simp) _ _ _ e h
      · exact execSQLWithOpts_no_addColumn _ (by simp) _ _ _ e h
      · subst h; simp [doneLine]

/-! ### Preflight matches its specification -/

lemma preflight_spec_eq (cdb : CatalogDb) (col pk : String) (v : Bool) :
    (preflight cdb col pk v).performed = (preflightSpec cdb col pk).1 ∧
    (preflight cdb col pk v).result = (preflightSpec cdb col pk).2.1 ∧
    (preflight cdb col pk v).printedEstimate = (preflightSpec cdb col pk).2.2 := by
  rcases cdb with ⟨se, te, ce, ap, tv, pc⟩
  by_cases hpk : pk = "" <;>
    by_cases hc : ce col <;>
      by_cases hck : ce pk <;>
        cases se <;> cases te <;> cases ap <;> cases tv <;>
          simp [preflight, preflightSpec, gatingChecks, runChecks, checkErr, hpk, hc, hck]

lemma execSQLWithOpts_dry (ph : Phase) (ctx : String) (v : Bool) :
    execSQLWithOpts ph ctx true v
      = [Event.info (ctx ++ " (dry-run)"), Event.printStmt ph] := rfl

/-- In a live run that reaches the loop with a non-negative batch size,
the teardown and swap statements are both executed. -/
lemma teardown_swap_exec_mem (plan : MigrationPlan) (db : DbState)
    (h : plan.dryRun = false) (hbs : ¬ plan.batchSize < 0) :
    Event.execStmt .teardown ∈ (runMigration plan db).trace ∧
    Event.execStmt .swap ∈ (runMigration plan db).trace := by
  rw [runMigration_trace, runFromTrigger_eq_live _ _ h hbs]
  have h4 := execStmt_mem_execSQLWithOpts_live .teardown tdCtx plan.verbose
  have h5 := execStmt_mem_execSQLWithOpts_live .swap swCtx plan.verbose
  constructor <;>
    simp only [List.append_assoc, List.cons_append, List.mem_append, List.mem_cons] <;>
    tauto

/-! ### The claims -/

/-- C5: preflight performs its checks in the fixed order schema-exists,
table-exists, source-column-exists, ordering-column-exists (only when an
ordering column was supplied), alter-privilege, type-recognized,
short-circuiting with a descriptive error on the first failure of checks
1-6; the pending-row count (check 7) is best-effort — its failure never
fails preflight and only suppresses the printed estimate.  Stated as
agreement of the helper.go preflight embedding with the spec-side
preflightSpec (ordered gating checks with short-circuit, then the
non-fatal count) on the checks performed, the returned result and whether
the estimate was printed. -/
theorem C5_preflight_check_order (cdb : CatalogDb) (col pk : String) (v : Bool) :
    (preflight cdb col pk v).performed = (preflightSpec cdb col pk).1 ∧
    (preflight cdb col pk v).result = (preflightSpec cdb col pk).2.1 ∧
    (preflight cdb col pk v).printedEstimate = (preflightSpec cdb col pk).2.2 :=
  preflight_spec_eq cdb col pk v

/-- C7: the quote transform of helper.go (wrap in double quotes, no
escaping) is not safe for identifiers containing a double-quote character:
quoting the identifier a"b yields "a"b", whose quoted region terminates
after a and leaves b" as trailing uninterpreted SQL — contradicting both
the claim and the function's own "safely wraps" comment.  All schema,
table and column identifiers do pass through quote; the transform itself
is what fails. -/
theorem C7_quote_unsafe_on_embedded_quote :
    quote ("a\"b") = "\"a\"b\"" ∧
    parseQuotedIdent (quote ("a\"b")) = some ("a", "b\"") ∧
    ¬ quoteSafe ("a\"b") := by
  refine ⟨rfl, by decide, ?_⟩
  intro h
  rw [quoteSafe] at h
  exact absurd h (by decide)

/-- C2 counterexample: with batch size 0 (which no input check rejects —
see C1) and a one-row table awaiting backfill, the loop terminates on an
immediate zero-row batch while that row is still pending, so the claimed
post-termination pending count of zero fails. -/
theorem C2_counterexample :
    (backfillLive .keyed 0 false [⟨1, 1, some 5, none⟩]).2.2 = [0] ∧
    pendingCount (backfillLive .keyed 0 false [⟨1, 1, some 5, none⟩]).2.1 = 1 := by
  rw [backfillLive_zero_bs]
  exact ⟨rfl, by decide⟩

/-- C2 (amended: batch size at least 1): for every finite table the
backfill loop runs finitely many batches — at most pending + 1 — and
terminates exactly when a batch reports zero rows affected (every earlier
batch is productive, the last batch reports 0); after termination the
count of rows whose source is non-null and shadow is null is zero. -/
theorem C2_backfill_terminates_and_converges (st : Strategy) (bs : Nat) (v : Bool)
    (t : List Row) (hbs : 1 ≤ bs) :
    (∃ pre, (backfillLive st bs v t).2.2 = pre ++ [0] ∧ ∀ x ∈ pre, 0 < x) ∧
    (backfillLive st bs v t).2.2.length ≤ pendingCount t + 1 ∧
    pendingCount (backfillLive st bs v t).2.1 = 0 :=
  ⟨backfillLive_seq_shape st bs v t, backfillLive_seq_length t,
    backfillLive_pending_zero hbs t⟩

/-- C2 witness: the theorem applied to batch size 1 and a concrete
one-row table. -/
theorem C2_backfill_terminates_and_converges_witness :
    1 ≤ 1 ∧
    ((∃ pre, (backfillLive .keyed 1 false [⟨1, 1, some 5, none⟩]).2.2 = pre ++ [0] ∧
        ∀ x ∈ pre, 0 < x) ∧
     (backfillLive .keyed 1 false [⟨1, 1, some 5, none⟩]).2.2.length
        ≤ pendingCount [⟨1, 1, some 5, none⟩] + 1 ∧
     pendingCount (backfillLive .keyed 1 false [⟨1, 1, some 5, none⟩]).2.1 = 0) :=
  ⟨le_refl 1,
    C2_backfill_terminates_and_converges .keyed 1 false [⟨1, 1, some 5, none⟩] (le_refl 1)⟩

/-- C1: contrary to the claim, nothing rejects a zero or negative batch
size as a configuration error: main.go validates only the four required
string flags (the batch flag is not examined), preflight does not even
receive the batch size and performs no input-range check, and with batch
size 0 a live migration on a fully valid environment proceeds through
every phase to the destructive swap instead of aborting before any phase
executes. -/
theorem C1_no_batch_size_rejection :
    missingRequiredFlags ("postgres://localhost/db") ("users") ("age") ("bigint") = false ∧
    (preflight allOkCatalog ("age") ("id") false).result = none ∧
    zeroBatchPlan.batchSize = 0 ∧
    pendingCount twoRowDb.rows = 2 ∧
    Event.execStmt .swap ∈ (runMigration zeroBatchPlan twoRowDb).trace ∧
    (runMigration zeroBatchPlan twoRowDb).ok = true := by
  refine ⟨rfl, rfl, rfl, by decide, ?_, ?_⟩
  · exact (teardown_swap_exec_mem zeroBatchPlan twoRowDb rfl (by decide)).2
  · rw [runMigration_ok, runFromTrigger_eq_live _ _ rfl (by decide)]

/-- C9: with batch size exactly zero reaching the backfill phase, the
first batch statement selects zero rows (LIMIT 0), reports zero rows
affected, and the loop treats this as convergence: teardown and the
destructive swap both execute, and after the swap the rows that still
needed backfill carry NULL under the original column name (their shadow
value, never populated). -/
theorem C9_zero_batch_false_convergence (plan : MigrationPlan) (db : DbState)
    (hbs : plan.batchSize = 0) (hlive : plan.dryRun = false)
    (hcol : tempColumn plan ∈ db.columns) (hpend : 0 < pendingCount db.rows) :
    selectBatch (strategyOf plan) plan.batchSize.toNat db.rows = [] ∧
    (runMigration plan db).seq = [0] ∧
    Event.execStmt .teardown ∈ (runMigration plan db).trace ∧
    Event.execStmt .swap ∈ (runMigration plan db).trace ∧
    ∃ r ∈ (runMigration plan db).db.rows, r.source = none := by
  have hnneg : ¬ plan.batchSize < 0 := by rw [hbs]; decide
  have htn : plan.batchSize.toNat = 0 := by rw [hbs]; rfl
  have hD : addPhaseDb plan db = db := by
    unfold addPhaseDb
    rw [if_pos hcol]
  have hmem := teardown_swap_exec_mem plan db hlive hnneg
  refine ⟨by rw [htn]; exact selectBatch_zero _ _, ?_, hmem.1, hmem.2, ?_⟩
  · rw [runMigration_seq, runFromTrigger_eq_live _ _ hlive hnneg, hD, htn,
      backfillLive_zero_bs]
  · rw [runMigration_db, runFromTrigger_eq_live _ _ hlive hnneg, hD, htn,
      backfillLive_zero_bs]
    obtain ⟨r0, hr0, hr0p⟩ := List.countP_pos_iff.mp hpend
    have hr0sh : r0.shadow = none := by
      rw [needsBackfill, Bool.and_eq_true] at hr0p
      exact Option.isNone_iff_eq_none.mp hr0p.2
    refine ⟨{ r0 with source := r0.shadow, shadow := none }, ?_, by simp [hr0sh]⟩
    simp only [applySwap, applyTeardown]
    exact List.mem_map_of_mem _ hr0

/-- C9 witness: the theorem applied to the zero-batch plan on a resumed
table (shadow column present) with one row still pending. -/
theorem C9_zero_batch_false_convergence_witness :
    (zeroBatchPlan.batchSize = 0 ∧ zeroBatchPlan.dryRun = false ∧
      tempColumn zeroBatchPlan ∈ resumeDb.columns ∧ 0 < pendingCount resumeDb.rows) ∧
    (selectBatch (strategyOf zeroBatchPlan) zeroBatchPlan.batchSize.toNat resumeDb.rows = [] ∧
     (runMigration zeroBatchPlan resumeDb).seq = [0] ∧
     Event.execStmt .teardown ∈ (runMigration zeroBatchPlan resumeDb).trace ∧
     Event.execStmt .swap ∈ (runMigration zeroBatchPlan resumeDb).trace ∧
     ∃ r ∈ (runMigration zeroBatchPlan resumeDb).db.rows, r.source = none) :=
  ⟨⟨rfl, rfl, by decide, by decide⟩,
    C9_zero_batch_false_convergence zeroBatchPlan resumeDb rfl rfl (by decide) (by decide)⟩

/-- C6: when the shadow column (named column_new) already exists on the
table, the add-shadow-column transition emits no DDL — the whole run
neither executes nor prints the add-column statement — and orchestration
proceeds to the trigger-installation phase on the unchanged state: the run
is exactly the skip notice followed by the trigger-phase-onward run. -/
theorem C6_shadow_column_skip (plan : MigrationPlan) (db : DbState)
    (hcol : tempColumn plan ∈ db.columns) :
    runMigration plan db = { runFromTrigger plan db with
      trace := Event.info ("Temp column already exists, skipping add.") ::
        (runFromTrigger plan db).trace } ∧
    ∀ e ∈ (runMigration plan db).trace,
      e ≠ Event.execStmt .addColumn ∧ e ≠ Event.printStmt .addColumn := by
  have hA : addPhaseEvents plan db
      = [Event.info ("Temp column already exists, skipping add.")] := by
    unfold addPhaseEvents
    rw [if_pos hcol]
  have hD : addPhaseDb plan db = db := by
    unfold addPhaseDb
    rw [if_pos hcol]
  have htr : runMigration plan db = { runFromTrigger plan db with
      trace := Event.info ("Temp column already exists, skipping add.") ::
        (runFromTrigger plan db).trace } := by
    unfold runMigration
    rw [hA, hD]
    rfl
  refine ⟨htr, ?_⟩
  intro e he
  rw [htr] at he
  have he2 : e ∈ Event.info ("Temp column already exists, skipping add.") ::
      (runFromTrigger plan db).trace := he
  rcases List.mem_cons.mp he2 with h | h
  · subst h; simp
  · exact runFromTrigger_no_addColumn plan db e h

/-- C6 witness: the theorem applied to the live plan on a table that
already carries the shadow column. -/
theorem C6_shadow_column_skip_witness :
    tempColumn livePlan ∈ resumeDb.columns ∧
    (runMigration livePlan resumeDb = { runFromTrigger livePlan resumeDb with
        trace := Event.info ("Temp column already exists, skipping add.") ::
          (runFromTrigger livePlan resumeDb).trace } ∧
     ∀ e ∈ (runMigration livePlan resumeDb).trace,
       e ≠ Event.execStmt .addColumn ∧ e ≠ Event.printStmt .addColumn) :=
  ⟨by decide, C6_shadow_column_skip livePlan resumeDb (by decide)⟩

/-- C4: in dry-run mode no mutating statement reaches the database — the
final state equals the initial state (row list and column set included),
the trace holds no executed statement or batch — and the backfill loop
performs exactly one iteration: one printed representative batch statement
and one EXPLAIN call, regardless of how many rows remain. -/
theorem C4_dry_run_frame (plan : MigrationPlan) (db : DbState)
    (hdry : plan.dryRun = true) :
    (runMigration plan db).db = db ∧
    (runMigration plan db).trace.filter isMutation = [] ∧
    (runMigration plan db).trace.countP (fun e => decide (e = Event.printBatch)) = 1 ∧
    (runMigration plan db).trace.countP (fun e => decide (e = Event.explainBatch)) = 1 ∧
    (runMigration plan db).seq = [] ∧ (runMigration plan db).ok = true := by
  have htr : (runMigration plan db).trace = addPhaseEvents plan db ++
      (execSQLWithOpts .installTrigger trgCtx true plan.verbose ++
        loopHeader :: dryRunLoopEvents ++
        execSQLWithOpts .teardown tdCtx true plan.verbose ++
        execSQLWithOpts .swap swCtx true plan.verbose ++ [doneLine]) := by
    rw [runMigration_trace, runFromTrigger_eq_dry _ _ hdry]
  have hdb : (runMigration plan db).db = db := by
    rw [runMigration_db, runFromTrigger_eq_dry _ _ hdry, addPhaseDb_dry _ _ hdry]
  have hA : addPhaseEvents plan db = if tempColumn plan ∈ db.columns
      then [Event.info ("Temp column already exists, skipping add.")]
      else [Event.info ("Adding new column" ++ " (dry-run)"), Event.printStmt .addColumn] := by
    unfold addPhaseEvents
    rw [hdry, execSQLWithOpts_dry]
  refine ⟨hdb, ?_, ?_, ?_,
    by rw [runMigration_seq, runFromTrigger_eq_dry _ _ hdry],
    by rw [runMigration_ok, runFromTrigger_eq_dry _ _ hdry]⟩ <;>
  · rw [htr, hA]
    by_cases hcol : tempColumn plan ∈ db.columns <;>
      simp [hcol, execSQLWithOpts_dry, dryRunLoopEvents, loopHeader, doneLine,
        isMutation, List.filter_append, List.countP_append, List.countP_cons]

/-- C4 witness: the theorem applied to the dry-run plan on the two-row
table. -/
theorem C4_dry_run_frame_witness :
    dryPlan.dryRun = true ∧
    ((runMigration dryPlan twoRowDb).db = twoRowDb ∧
     (runMigration dryPlan twoRowDb).trace.filter isMutation = [] ∧
     (runMigration dryPlan twoRowDb).trace.countP
       (fun e => decide (e = Event.printBatch)) = 1 ∧
     (runMigration dryPlan twoRowDb).trace.countP
       (fun e => decide (e = Event.explainBatch)) = 1 ∧
     (runMigration dryPlan twoRowDb).seq = [] ∧
     (runMigration dryPlan twoRowDb).ok = true) :=
  ⟨rfl, C4_dry_run_frame dryPlan twoRowDb rfl⟩

/-- C3: in every live run, the install-sync statement is executed before
any backfill batch; the teardown-sync statement executes only after a
zero-row batch has been reported; the swap executes only after teardown;
and no backfill batch executes after teardown — so no batch ever runs
while the sync trigger is absent. -/
theorem C3_phase_ordering (plan : MigrationPlan) (db : DbState)
    (hlive : plan.dryRun = false) :
    (∀ (j : Nat) (e : Event), (runMigration plan db).trace[j]? = some e →
        (∃ n, e = Event.execBatch n) →
        ∃ i < j, (runMigration plan db).trace[i]? = some (Event.execStmt .installTrigger)) ∧
    (∀ j : Nat, (runMigration plan db).trace[j]? = some (Event.execStmt .teardown) →
        ∃ i < j, (runMigration plan db).trace[i]? = some (Event.execBatch 0)) ∧
    (∀ j : Nat, (runMigration plan db).trace[j]? = some (Event.execStmt .swap) →
        ∃ i < j, (runMigration plan db).trace[i]? = some (Event.execStmt .teardown)) ∧
    (∀ (i j n : Nat), (runMigration plan db).trace[i]? = some (Event.execBatch n) →
        (runMigration plan db).trace[j]? = some (Event.execStmt .teardown) → i < j) := by
  by_cases hbs : plan.batchSize < 0
  · have htr : (runMigration plan db).trace = addPhaseEvents plan db ++
        (execSQLWithOpts .installTrigger trgCtx false plan.verbose ++
          [loopHeader, Event.fatal ("Batch update")]) := by
      rw [runMigration_trace, runFromTrigger_eq_fatal _ _ hlive hbs]
    have hnone : ∀ e ∈ (runMigration plan db).trace,
        (∀ n, e ≠ Event.execBatch n) ∧ e ≠ Event.execStmt .teardown ∧
          e ≠ Event.execStmt .swap := by
      rw [htr]
      intro e he
      rcases List.mem_append.mp he with h | h
      · obtain ⟨hb, _, ht, hs⟩ := addPhaseEvents_no plan db e h
        exact ⟨hb, ht, hs⟩
      rcases List.mem_append.mp h with h | h
      · refine ⟨execSQLWithOpts_no_batch _ _ _ _ e h, ?_, ?_⟩ <;> intro hx <;>
          exact absurd (execSQLWithOpts_exec_only _ _ _ _ e h _ hx) (by simp)
      · simp only [List.mem_cons, List.not_mem_nil, or_false] at h
        rcases h with h | h <;> subst h <;>
          exact ⟨by simp [loopHeader], by simp [loopHeader], by simp [loopHeader]⟩
    refine ⟨?_, ?_, ?_, ?_⟩
    · rintro j e hj ⟨n, hn⟩
      exact absurd hn ((hnone e (mem_of_getElemQ hj)).1 n)
    · intro j hj
      exact absurd rfl (hnone _ (mem_of_getElemQ hj)).2.1
    · intro j hj
      exact absurd rfl (hnone _ (mem_of_getElemQ hj)).2.2
    · intro i j n hi hj
      exact absurd rfl (hnone _ (mem_of_getElemQ hj)).2.1
  · have hshape : (runMigration plan db).trace = addPhaseEvents plan db ++
        (execSQLWithOpts .installTrigger trgCtx false plan.verbose ++
          loopHeader :: (backfillLive (strategyOf plan) plan.batchSize.toNat
            plan.verbose (addPhaseDb plan db).rows).1 ++
          execSQLWithOpts .teardown tdCtx false plan.verbose ++
          execSQLWithOpts .swap swCtx false plan.verbose ++ [doneLine]) := by
      rw [runMigration_trace, runFromTrigger_eq_live _ _ hlive hbs]
    -- reshaped forms of the live trace
    have hsh2 : (runMigration plan db).trace
        = (addPhaseEvents plan db ++ [Event.info (trgCtx ++ "...")]) ++
            Event.execStmt .installTrigger ::
          ((if plan.verbose then [Event.info ("  done in <elapsed>")] else []) ++
            (loopHeader :: (backfillLive (strategyOf plan) plan.batchSize.toNat
              plan.verbose (addPhaseDb plan db).rows).1 ++
             execSQLWithOpts .teardown tdCtx false plan.verbose ++
             execSQLWithOpts .swap swCtx false plan.verbose ++ [doneLine])) := by
      rw [hshape, execSQLWithOpts_live]
      simp [List.append_assoc]
    have hsh3 : (runMigration plan db).trace
        = (addPhaseEvents plan db ++
            execSQLWithOpts .installTrigger trgCtx false plan.verbose ++
            loopHeader :: (backfillLive (strategyOf plan) plan.batchSize.toNat
              plan.verbose (addPhaseDb plan db).rows).1) ++
          (execSQLWithOpts .teardown tdCtx false plan.verbose ++
            (execSQLWithOpts .swap swCtx false plan.verbose ++ [doneLine])) := by
      rw [hshape]
      simp [List.append_assoc]
    have hsh4 : (runMigration plan db).trace
        = (addPhaseEvents plan db ++
            execSQLWithOpts .installTrigger trgCtx false plan.verbose ++
            loopHeader :: (backfillLive (strategyOf plan) plan.batchSize.toNat
              plan.verbose (addPhaseDb plan db).rows).1 ++
            execSQLWithOpts .teardown tdCtx false plan.verbose) ++
          (execSQLWithOpts .swap swCtx false plan.verbose ++ [doneLine]) := by
      rw [hshape]
      simp [List.append_assoc]
    have hXb : ∀ e ∈ addPhaseEvents plan db ++
        execSQLWithOpts .installTrigger trgCtx false plan.verbose ++
        loopHeader :: (backfillLive (strategyOf plan) plan.batchSize.toNat
          plan.verbose (addPhaseDb plan db).rows).1,
        ¬ e = Event.execStmt .teardown := by
      intro e he hx
      rcases List.mem_append.mp he with h | h
      · rcases List.mem_append.mp h with h | h
        · exact (addPhaseEvents_no plan db e h).2.2.1 hx
        · exact absurd (execSQLWithOpts_exec_only _ _ _ _ e h _ hx) (by simp)
      · rcases List.mem_cons.mp h with h | h
        · subst h; exact absurd hx (by simp [loopHeader])
        · exact backfillLive_no_exec _ _ _ _ e h _ hx
    refine ⟨?_, ?_, ?_, ?_⟩
    · intro j e hj hbatch
      rw [hsh2] at hj ⊢
      refine @before_split Event (fun e => ∃ n, e = Event.execBatch n) _ _ _ ?_ ?_ j e hj hbatch
      · rintro e' he' ⟨n, hn⟩
        rcases List.mem_append.mp he' with h | h
        · exact (addPhaseEvents_no plan db e' h).1 n hn
        · simp only [List.mem_singleton] at h
          subst h
          cases hn
      · rintro ⟨n, hn⟩
        cases hn
    · intro j hj
      rw [hsh3] at hj ⊢
      refine @after_split Event (fun e => e = Event.execStmt .teardown) _ _
        (Event.execBatch 0) hXb ?_ j _ hj rfl
      exact List.mem_append.mpr (Or.inr (List.mem_cons_of_mem _
        (execBatch_zero_mem _ _ _ _)))
    · intro j hj
      rw [hsh4] at hj ⊢
      refine @after_split Event (fun e => e = Event.execStmt .swap) _ _
        (Event.execStmt .teardown) ?_ ?_ j _ hj rfl
      · intro e he hx
        rcases List.mem_append.mp he with h | h
        · rcases List.mem_append.mp h with h2 | h2
          · rcases List.mem_append.mp h2 with h3 | h3
            · exact (addPhaseEvents_no plan db e h3).2.2.2 hx
            · exact absurd (execSQLWithOpts_exec_only _ _ _ _ e h3 _ hx) (by simp)
          · rcases List.mem_cons.mp h2 with h3 | h3
            · subst h3
              exact absurd hx (by simp [loopHeader])
            · exact backfillLive_no_exec _ _ _ _ e h3 _ hx
        · exact absurd (execSQLWithOpts_exec_only _ _ _ _ e h _ hx) (by simp)
      · exact List.mem_append.mpr (Or.inr
          (execStmt_mem_execSQLWithOpts_live .teardown tdCtx plan.verbose))
    · intro i j n hi hj
      rw [hsh3] at hi hj
      refine @sep_split Event (fun e => ∃ m, e = Event.execBatch m)
        (fun e => e = Event.execStmt .teardown) _ _ hXb ?_ i j _ _ hi ⟨n, rfl⟩ hj rfl
      intro e he
      rintro ⟨m, hm⟩
      rcases List.mem_append.mp he with h | h
      · exact execSQLWithOpts_no_batch _ _ _ _ e h m hm
      · rcases List.mem_append.mp h with h | h
        · exact execSQLWithOpts_no_batch _ _ _ _ e h m hm
        · simp only [List.mem_singleton] at h
          subst h
          cases hm

/-- C3 witness: the theorem applied to the live plan on the two-row
table. -/
theorem C3_phase_ordering_witness :
    livePlan.dryRun = false ∧
    ((∀ (j : Nat) (e : Event), (runMigration livePlan twoRowDb).trace[j]? = some e →
        (∃ n, e = Event.execBatch n) →
        ∃ i < j, (runMigration livePlan twoRowDb).trace[i]?
          = some (Event.execStmt .installTrigger)) ∧
     (∀ j : Nat, (runMigration livePlan twoRowDb).trace[j]?
          = some (Event.execStmt .teardown) →
        ∃ i < j, (runMigration livePlan twoRowDb).trace[i]?
          = some (Event.execBatch 0)) ∧
     (∀ j : Nat, (runMigration livePlan twoRowDb).trace[j]?
          = some (Event.execStmt .swap) →
        ∃ i < j, (runMigration livePlan twoRowDb).trace[i]?
          = some (Event.execStmt .teardown)) ∧
     (∀ (i j n : Nat), (runMigration livePlan twoRowDb).trace[i]?
          = some (Event.execBatch n) →
        (runMigration livePlan twoRowDb).trace[j]?
          = some (Event.execStmt .teardown) → i < j)) :=
  ⟨rfl, C3_phase_ordering livePlan twoRowDb rfl⟩

/-- C8: for any 2500-row users table with distinct ordering-column values,
age non-null everywhere and the shadow column not yet populated, the live
migration with batch size 1000 and ordering column id produces the
rows-affected sequence 1000, 1000, 500, 0 (exactly three productive
batches, then the terminating zero batch), executes teardown and swap, and
ends with a single column under the original name whose values are the
2500 original source values. -/
theorem C8_end_to_end_scenario (rows : List Row) (hlen : rows.length = 2500)
    (hkeys : (rows.map Row.key).Nodup)
    (hrows : ∀ r ∈ rows, r.source.isSome = true ∧ r.shadow = none) :
    (runMigration livePlan ⟨["id", "age"], rows, false⟩).seq = [1000, 1000, 500, 0] ∧
    (runMigration livePlan ⟨["id", "age"], rows, false⟩).ok = true ∧
    (runMigration livePlan ⟨["id", "age"], rows, false⟩).db.columns = ["id", "age"] ∧
    (runMigration livePlan ⟨["id", "age"], rows, false⟩).db.rows.map Row.source
      = rows.map Row.source ∧
    Event.execStmt .teardown ∈ (runMigration livePlan ⟨["id", "age"], rows, false⟩).trace ∧
    Event.execStmt .swap ∈ (runMigration livePlan ⟨["id", "age"], rows, false⟩).trace := by
  have hnneg : ¬ livePlan.batchSize < 0 := by decide
  have hlive : livePlan.dryRun = false := rfl
  have hmem := teardown_swap_exec_mem livePlan ⟨["id", "age"], rows, false⟩ hlive hnneg
  have hcol : ¬ tempColumn livePlan ∈ (["id", "age"] : List String) := by decide
  have hshadow : rows.map (fun r => { r with shadow := none }) = rows := by
    have hpt : ∀ r ∈ rows, ({ r with shadow := none } : Row) = r := by
      intro r hr
      have h2 := (hrows r hr).2
      cases r
      simp only [Row.mk.injEq, true_and]
      simp only [] at h2
      exact h2.symm
    rw [List.map_congr_left hpt]
    simp
  have hD : addPhaseDb livePlan ⟨["id", "age"], rows, false⟩
      = ⟨["id", "age", "age_new"], rows, false⟩ := by
    unfold addPhaseDb
    rw [if_neg hcol, if_neg (by decide : ¬ livePlan.dryRun = true)]
    unfold applyAddColumn
    simp only [hshadow]
    rfl
  have hkeys2 : (rows.map (rowId .keyed)).Nodup := by
    rw [map_rowId_keyed]
    exact hkeys
  have hpend : pendingCount rows = 2500 := by
    rw [pendingCount, List.countP_eq_length.mpr ?_]
    · exact hlen
    · intro r hr
      obtain ⟨h1, h2⟩ := hrows r hr
      simp [needsBackfill, h1, h2]
  have hseq : (backfillLive .keyed 1000 false rows).2.2 = [1000, 1000, 500, 0] := by
    rw [backfillLive_seq_eq .keyed 1000 false rows hkeys2, hpend, batchSeqSpec_eval]
  have hloop := backfillLive_rows .keyed 1000 false rows
  have hpzero := @backfillLive_pending_zero .keyed 1000 false (by norm_num) rows
  have hmap : (backfillLive .keyed 1000 false rows).2.1.map Row.shadow
      = rows.map Row.source := by
    apply List.ext_getElem
    · rw [List.length_map, List.length_map, hloop.1]
    · intro n h1 h2
      rw [List.getElem_map, List.getElem_map]
      have hb1 : n < (backfillLive .keyed 1000 false rows).2.1.length := by
        simpa using h1
      have hb2 : n < rows.length := by simpa using h2
      obtain ⟨hs, hk, hc, hsh⟩ := hloop.2 n (rows[n])
        ((backfillLive .keyed 1000 false rows).2.1[n])
        (List.getElem?_eq_getElem hb2) (List.getElem?_eq_getElem hb1)
      obtain ⟨hsrcSome, hshadNone⟩ := hrows (rows[n]) (List.getElem_mem hb2)
      have hnb : ¬ needsBackfill ((backfillLive .keyed 1000 false rows).2.1[n]) = true :=
        (List.countP_eq_zero.mp hpzero) _ (List.getElem_mem hb1)
      rw [needsBackfill, Bool.and_eq_true, not_and] at hnb
      have hsome : ((backfillLive .keyed 1000 false rows).2.1[n]).source.isSome = true := by
        rw [hs]
        exact hsrcSome
      have hshsome : ¬ ((backfillLive .keyed 1000 false rows).2.1[n]).shadow.isNone = true :=
        hnb hsome
      rcases hsh with h | h
      · rw [h, hshadNone] at hshsome
        exact absurd rfl hshsome
      · exact h
  have hdbeq : (runMigration livePlan ⟨["id", "age"], rows, false⟩).db
      = applySwap livePlan (applyTeardown ⟨["id", "age", "age_new"],
          (backfillLive .keyed 1000 false rows).2.1, true⟩) := by
    rw [runMigration_db, runFromTrigger_eq_live _ _ hlive hnneg, hD]
    rfl
  refine ⟨?_, ?_, ?_, ?_, hmem.1, hmem.2⟩
  · rw [runMigration_seq, runFromTrigger_eq_live _ _ hlive hnneg, hD]
    exact hseq
  · rw [runMigration_ok, runFromTrigger_eq_live _ _ hlive hnneg]
  · rw [hdbeq]
    rfl
  · rw [hdbeq]
    show ((backfillLive .keyed 1000 false rows).2.1.map
      (fun r => { r with source := r.shadow, shadow := none })).map Row.source
        = rows.map Row.source
    rw [List.map_map]
    exact hmap

/-- C8 witness: the theorem applied to the concrete 2500-row table with
ascending ids. -/
theorem C8_end_to_end_scenario_witness :
    (demoRows.length = 2500 ∧ (demoRows.map Row.key).Nodup ∧
      ∀ r ∈ demoRows, r.source.isSome = true ∧ r.shadow = none) ∧
    ((runMigration livePlan ⟨["id", "age"], demoRows, false⟩).seq = [1000, 1000, 500, 0] ∧
     (runMigration livePlan ⟨["id", "age"], demoRows, false⟩).ok = true ∧
     (runMigration livePlan ⟨["id", "age"], demoRows, false⟩).db.columns = ["id", "age"] ∧
     (runMigration livePlan ⟨["id", "age"], demoRows, false⟩).db.rows.map Row.source
       = demoRows.map Row.source ∧
     Event.execStmt .teardown ∈ (runMigration livePlan ⟨["id", "age"], demoRows, false⟩).trace ∧
     Event.execStmt .swap ∈ (runMigration livePlan ⟨["id", "age"], demoRows, false⟩).trace) := by
  have hlen : demoRows.length = 2500 := by
    simp [demoRows]
  have hkeys : (demoRows.map Row.key).Nodup := by
    simp only [demoRows, List.map_map]
    have : (Row.key ∘ fun i => (⟨i, i, some (Int.ofNat i), none⟩ : Row)) = id := rfl
    rw [this, List.map_id]
    exact List.nodup_range 2500
  have hrows : ∀ r ∈ demoRows, r.source.isSome = true ∧ r.shadow = none := by
    intro r hr
    simp only [demoRows, List.mem_map] at hr
    obtain ⟨i, _, rfl⟩ := hr
    simp
  exact ⟨⟨hlen, hkeys, hrows⟩, C8_end_to_end_scenario demoRows hlen hkeys hrows⟩

/-- Changing only the verbose flag never changes which statements reach
the database, nor the final state, rows-affected sequence or outcome of a
run — it only changes informational output lines. -/
lemma runMigration_verbose_invariant (sch tb col ty : String) (bs : Int)
    (pk : String) (dr : Bool) (db : DbState) (v : Bool) :
    (runMigration ⟨sch, tb, col, ty, bs, pk, dr, v⟩ db).trace.filter isDbCall
      = (runMigration ⟨sch, tb, col, ty, bs, pk, dr, false⟩ db).trace.filter isDbCall ∧
    (runMigration ⟨sch, tb, col, ty, bs, pk, dr, v⟩ db).db
      = (runMigration ⟨sch, tb, col, ty, bs, pk, dr, false⟩ db).db ∧
    (runMigration ⟨sch, tb, col, ty, bs, pk, dr, v⟩ db).seq
      = (runMigration ⟨sch, tb, col, ty, bs, pk, dr, false⟩ db).seq ∧
    (runMigration ⟨sch, tb, col, ty, bs, pk, dr, v⟩ db).ok
      = (runMigration ⟨sch, tb, col, ty, bs, pk, dr, false⟩ db).ok := by
  have hA : (addPhaseEvents ⟨sch, tb, col, ty, bs, pk, dr, v⟩ db).filter isDbCall
      = (addPhaseEvents ⟨sch, tb, col, ty, bs, pk, dr, false⟩ db).filter isDbCall := by
    rw [filter_isDbCall_addPhaseEvents, filter_isDbCall_addPhaseEvents]
    simp [tempColumn]
  have hAD : addPhaseDb ⟨sch, tb, col, ty, bs, pk, dr, v⟩ db
      = addPhaseDb ⟨sch, tb, col, ty, bs, pk, dr, false⟩ db := rfl
  cases dr with
  | true =>
    rw [runMigration_trace, runMigration_trace, runMigration_db, runMigration_db,
      runMigration_seq, runMigration_seq, runMigration_ok, runMigration_ok,
      runFromTrigger_eq_dry _ _ rfl, runFromTrigger_eq_dry _ _ rfl]
    refine ⟨?_, hAD, rfl, rfl⟩
    simp only [List.filter_append]
    rw [hA]
    simp [filter_isDbCall_execSQLWithOpts, dryRunLoopEvents, loopHeader, doneLine,
      isDbCall, List.filter_cons]
  | false =>
    by_cases hbs : bs < 0
    · rw [runMigration_trace, runMigration_trace, runMigration_db, runMigration_db,
        runMigration_seq, runMigration_seq, runMigration_ok, runMigration_ok,
        runFromTrigger_eq_fatal _ _ rfl hbs, runFromTrigger_eq_fatal _ _ rfl hbs]
      refine ⟨?_, by rw [hAD], rfl, rfl⟩
      simp only [List.filter_append]
      rw [hA]
      simp [filter_isDbCall_execSQLWithOpts, loopHeader, isDbCall, List.filter_cons]
    · rw [runMigration_trace, runMigration_trace, runMigration_db, runMigration_db,
        runMigration_seq, runMigration_seq, runMigration_ok, runMigration_ok,
        runFromTrigger_eq_live _ _ rfl hbs, runFromTrigger_eq_live _ _ rfl hbs]
      have hl := backfillLive_verbose
        (strategyOf ⟨sch, tb, col, ty, bs, pk, false, false⟩) (Int.toNat bs) v
        (addPhaseDb ⟨sch, tb, col, ty, bs, pk, false, false⟩ db).rows
      have hl1 := congrArg Prod.fst hl.1
      have hl2 := congrArg Prod.snd hl.1
      refine ⟨?_, ?_, ?_, rfl⟩
      · simp only [List.filter_append, List.filter_cons]
        rw [hA]
        have hfl : ((backfillLive (strategyOf ⟨sch, tb, col, ty, bs, pk, false, v⟩)
            (MigrationPlan.batchSize ⟨sch, tb, col, ty, bs, pk, false, v⟩).toNat
            (MigrationPlan.verbose ⟨sch, tb, col, ty, bs, pk, false, v⟩)
            (addPhaseDb ⟨sch, tb, col, ty, bs, pk, false, v⟩ db).rows).1).filter isDbCall
            = ((backfillLive (strategyOf ⟨sch, tb, col, ty, bs, pk, false, false⟩)
            (MigrationPlan.batchSize ⟨sch, tb, col, ty, bs, pk, false, false⟩).toNat
            (MigrationPlan.verbose ⟨sch, tb, col, ty, bs, pk, false, false⟩)
            (addPhaseDb ⟨sch, tb, col, ty, bs, pk, false, false⟩ db).rows).1).filter isDbCall :=
          hl.2
        rw [hfl]
        simp [filter_isDbCall_execSQLWithOpts, loopHeader, doneLine, isDbCall]
      · show applySwap _ (applyTeardown { addPhaseDb ⟨sch, tb, col, ty, bs, pk, false, v⟩ db with
            rows := (backfillLive (strategyOf ⟨sch, tb, col, ty, bs, pk, false, v⟩)
              (MigrationPlan.batchSize ⟨sch, tb, col, ty, bs, pk, false, v⟩).toNat
              (MigrationPlan.verbose ⟨sch, tb, col, ty, bs, pk, false, v⟩)
              (addPhaseDb ⟨sch, tb, col, ty, bs, pk, false, v⟩ db).rows).2.1,
            triggerInstalled := true }) = _
        have hr : (backfillLive (strategyOf ⟨sch, tb, col, ty, bs, pk, false, v⟩)
            (MigrationPlan.batchSize ⟨sch, tb, col, ty, bs, pk, false, v⟩).toNat
            (MigrationPlan.verbose ⟨sch, tb, col, ty, bs, pk, false, v⟩)
            (addPhaseDb ⟨sch, tb, col, ty, bs, pk, false, v⟩ db).rows).2.1
            = (backfillLive (strategyOf ⟨sch, tb, col, ty, bs, pk, false, false⟩)
            (MigrationPlan.batchSize ⟨sch, tb, col, ty, bs, pk, false, false⟩).toNat
            (MigrationPlan.verbose ⟨sch, tb, col, ty, bs, pk, false, false⟩)
            (addPhaseDb ⟨sch, tb, col, ty, bs, pk, false, false⟩ db).rows).2.1 := hl1
        rw [hr]
        rfl
      · exact hl2

/-- C10: the sequence of statements that reaches the database — and the
final state, rows-affected sequence and process outcome — is identical
whether the verbose flag is on or off; the flag influences only printed
output (timings, zero-row batch lines).  Likewise preflight performs the
same checks with the same result and the same estimate printing for any
two verbosity settings (verbose only adds the count-failure notice). -/
theorem C10_verbose_invariance (sch tb col ty : String) (bs : Int) (pk : String)
    (dr : Bool) (db : DbState) (v1 v2 : Bool) (cdb : CatalogDb) (c p : String) :
    (runMigration ⟨sch, tb, col, ty, bs, pk, dr, v1⟩ db).trace.filter isDbCall
      = (runMigration ⟨sch, tb, col, ty, bs, pk, dr, v2⟩ db).trace.filter isDbCall ∧
    (runMigration ⟨sch, tb, col, ty, bs, pk, dr, v1⟩ db).db
      = (runMigration ⟨sch, tb, col, ty, bs, pk, dr, v2⟩ db).db ∧
    (runMigration ⟨sch, tb, col, ty, bs, pk, dr, v1⟩ db).seq
      = (runMigration ⟨sch, tb, col, ty, bs, pk, dr, v2⟩ db).seq ∧
    (runMigration ⟨sch, tb, col, ty, bs, pk, dr, v1⟩ db).ok
      = (runMigration ⟨sch, tb, col, ty, bs, pk, dr, v2⟩ db).ok ∧
    (preflight cdb c p v1).performed = (preflight cdb c p v2).performed ∧
    (preflight cdb c p v1).result = (preflight cdb c p v2).result ∧
    (preflight cdb c p v1).printedEstimate = (preflight cdb c p v2).printedEstimate := by
  obtain ⟨h1a, h1b, h1c, h1d⟩ := runMigration_verbose_invariant sch tb col ty bs pk dr db v1
  obtain ⟨h2a, h2b, h2c, h2d⟩ := runMigration_verbose_invariant sch tb col ty bs pk dr db v2
  obtain ⟨p1a, p1b, p1c⟩ := preflight_spec_eq cdb c p v1
  obtain ⟨p2a, p2b, p2c⟩ := preflight_spec_eq cdb c p v2
  exact ⟨h1a.trans h2a.symm, h1b.trans h2b.symm, h1c.trans h2c.symm, h1d.trans h2d.symm,
    p1a.trans p2a.symm, p1b.trans p2b.symm, p1c.trans p2c.symm⟩

end ColumnMigrate
